import Mathlib

/-!
Verification development for the `git_lock_sign_jlx` JupyterLab server extension.

The Python sources under `git_lock_sign_jlx/` are shallowly embedded here:

* JSON documents (parsed notebook contents, signature-metadata dictionaries)
  become the inductive type `Json`; Python `dict`s are association lists whose
  key order is the insertion order, exactly as in CPython.
* `NotebookService.generate_content_hash` is embedded completely, including a
  full executable SHA-256 over the UTF-8 bytes of the `json.dumps(...,
  sort_keys=True, separators=(",", ":"))` serialization.
* The external processes (git, gpg) invoked by `GitService`, `GPGService` and
  `UserService` are modelled as environment records holding the observable
  result of each call; the handlers (`LockNotebookHandler.post`,
  `UnlockNotebookHandler.post`) are embedded as pure functions of that
  environment which also emit a trace of the checks and git side effects they
  perform, in program order.

Numbers in documents are modelled as `Int` (notebook floats are outside the
scope of the claims treated here).
-/

/-- JSON-like values: the shape of parsed notebook contents.  Objects keep
their entries in insertion order, like Python dictionaries. -/
inductive Json where
  | null
  | bool (b : Bool)
  | num (n : Int)
  | str (s : String)
  | arr (elems : List Json)
  | obj (entries : List (String × Json))
  deriving Repr

mutual

/-- Structural (syntactic) equality test on `Json`. -/
def beqJson : Json → Json → Bool
  | .null, .null => true
  | .bool a, .bool b => a == b
  | .num a, .num b => a == b
  | .str a, .str b => a == b
  | .arr a, .arr b => beqJsonList a b
  | .obj a, .obj b => beqJsonEntries a b
  | _, _ => false

/-- Structural equality on lists of `Json`. -/
def beqJsonList : List Json → List Json → Bool
  | [], [] => true
  | a :: t, b :: u => beqJson a b && beqJsonList t u
  | _, _ => false

/-- Structural equality on object entry lists. -/
def beqJsonEntries : List (String × Json) → List (String × Json) → Bool
  | [], [] => true
  | (k, v) :: t, (k', v') :: u => k == k' && beqJson v v' && beqJsonEntries t u
  | _, _ => false

end

mutual

theorem beqJson_iff : ∀ a b, beqJson a b = true ↔ a = b
  | .null, b => by cases b <;> simp [beqJson]
  | .bool x, b => by cases b <;> simp [beqJson]
  | .num x, b => by cases b <;> simp [beqJson]
  | .str x, b => by cases b <;> simp [beqJson]
  | .arr l, b => by
      cases b <;> simp only [beqJson, Bool.false_eq_true, false_iff, ne_eq,
        reduceCtorEq, not_false_eq_true, Json.arr.injEq]
      exact beqJsonList_iff l _
  | .obj l, b => by
      cases b <;> simp only [beqJson, Bool.false_eq_true, false_iff, ne_eq,
        reduceCtorEq, not_false_eq_true, Json.obj.injEq]
      exact beqJsonEntries_iff l _

theorem beqJsonList_iff : ∀ a b, beqJsonList a b = true ↔ a = b
  | [], [] => by simp [beqJsonList]
  | [], _ :: _ => by simp [beqJsonList]
  | _ :: _, [] => by simp [beqJsonList]
  | x :: t, y :: u => by
      simp [beqJsonList, Bool.and_eq_true, beqJson_iff x y, beqJsonList_iff t u]

theorem beqJsonEntries_iff : ∀ a b, beqJsonEntries a b = true ↔ a = b
  | [], [] => by simp [beqJsonEntries]
  | [], _ :: _ => by simp [beqJsonEntries]
  | _ :: _, [] => by simp [beqJsonEntries]
  | (k, v) :: t, (k', v') :: u => by
      simp [beqJsonEntries, Bool.and_eq_true, beqJson_iff v v', beqJsonEntries_iff t u,
        and_assoc]

end

instance : DecidableEq Json := fun a b =>
  decidable_of_iff (beqJson a b = true) (beqJson_iff a b)

/-! ## Python dictionary and truthiness semantics -/

/-- Python `d.get(k)` / `k in d` on an association-list dictionary: the value
bound to the first occurrence of `k`. -/
def lookupJ (k : String) : List (String × Json) → Option Json
  | [] => none
  | (k', v) :: t => if k' = k then some v else lookupJ k t

/-- Python `d[k] = v`: replace the value at `k` in place if present (keeping
its position), otherwise append the new binding at the end. -/
def setKeyJ (k : String) (v : Json) : List (String × Json) → List (String × Json)
  | [] => [(k, v)]
  | (k', v') :: t => if k' = k then (k, v) :: t else (k', v') :: setKeyJ k v t

/-- Python `del d[k]`: remove the binding of `k`. -/
def delKeyJ (k : String) : List (String × Json) → List (String × Json)
  | [] => []
  | (k', v') :: t => if k' = k then t else (k', v') :: delKeyJ k t

/-- Python truthiness of a JSON value (`bool(x)`): `None`, `False`, `0`, `""`,
`[]` and `\x7b\x7d` are falsy, everything else is truthy. -/
def pyTruthy : Json → Bool
  | .null => false
  | .bool b => b
  | .num n => n != 0
  | .str s => !s.data.isEmpty
  | .arr l => !l.isEmpty
  | .obj l => !l.isEmpty

/-- Truthiness of `d.get(k)` when the key may be absent (absent → `None` →
falsy). -/
def pyTruthyOpt : Option Json → Bool
  | none => false
  | some j => pyTruthy j

theorem lookupJ_setKeyJ_ne (k k' : String) (v : Json) (l : List (String × Json))
    (h : k ≠ k') : lookupJ k (setKeyJ k' v l) = lookupJ k l := by
  induction l with
  | nil =>
    simp only [setKeyJ, lookupJ]
    rw [if_neg (fun h' => h h'.symm)]
  | cons hd t ih =>
    obtain ⟨k₀, v₀⟩ := hd
    by_cases h₀ : k₀ = k'
    · subst h₀
      simp only [setKeyJ, if_pos rfl, lookupJ]
      rw [if_neg (fun h' => h h'.symm), if_neg (fun h' => h h'.symm)]
    · simp only [setKeyJ, if_neg h₀, lookupJ]
      by_cases h₁ : k₀ = k
      · simp [h₁]
      · simp [h₁, ih]

/-! ## Character-list string utilities

Python string primitives used by the sources (`sorted` key comparison,
`str.endswith`, `str.upper`, negative slicing) are re-implemented over
`List Char` so that every definition evaluates by kernel reduction. -/

/-- Code-point lexicographic `<=` on character lists: Python string
comparison, as used by `sorted(dict.items())` via `json.dumps(sort_keys)`. -/
def charListLe : List Char → List Char → Bool
  | [], _ => true
  | _ :: _, [] => false
  | a :: s, b :: t =>
    if a.toNat < b.toNat then true
    else if b.toNat < a.toNat then false
    else charListLe s t

/-- Python `a <= b` on strings. -/
def strLeB (a b : String) : Bool := charListLe a.data b.data

/-- Python `s.endswith(t)`. -/
def strEndsWith (s t : String) : Bool := List.isSuffixOf t.data s.data

/-- Python `s.upper()` restricted to ASCII (GPG key ids are hexadecimal). -/
def asciiUpper (s : String) : String :=
  String.mk (s.data.map fun c =>
    if 97 ≤ c.toNat ∧ c.toNat ≤ 122 then Char.ofNat (c.toNat - 32) else c)

/-- Python `s[-n:] if len(s) > n else s`, the truncated-key pattern used by
the unlock handler's conditional-disclosure messages. -/
def pyLastChars (n : Nat) (s : String) : String :=
  if s.data.length > n then String.mk (s.data.drop (s.data.length - n)) else s

theorem char_eq_of_toNat_eq {a b : Char} (h : a.toNat = b.toNat) : a = b :=
  Char.ext (UInt32.ext h)

theorem charListLe_total : ∀ s t, charListLe s t = true ∨ charListLe t s = true
  | [], _ => Or.inl rfl
  | _ :: _, [] => Or.inr rfl
  | a :: s, b :: t => by
    simp only [charListLe]
    rcases Nat.lt_trichotomy a.toNat b.toNat with h | h | h
    · simp [h]
    · simp only [h, lt_irrefl, if_neg (lt_irrefl _)]
      simpa using charListLe_total s t
    · simp [h, Nat.lt_asymm h]

theorem charListLe_antisymm : ∀ s t, charListLe s t = true → charListLe t s = true → s = t
  | [], [], _, _ => rfl
  | [], _ :: _, _, h => by simp [charListLe] at h
  | _ :: _, [], h, _ => by simp [charListLe] at h
  | a :: s, b :: t, h1, h2 => by
    rcases Nat.lt_trichotomy a.toNat b.toNat with h | h | h
    · simp [charListLe, h, Nat.lt_asymm h] at h2
    · have hab : a = b := char_eq_of_toNat_eq h
      subst hab
      simp only [charListLe, lt_irrefl, if_neg (lt_irrefl _)] at h1 h2
      rw [charListLe_antisymm s t h1 h2]
    · simp [charListLe, h, Nat.lt_asymm h] at h1

theorem strLeB_total (a b : String) : strLeB a b = true ∨ strLeB b a = true :=
  charListLe_total a.data b.data

theorem strLeB_antisymm {a b : String} (h1 : strLeB a b = true) (h2 : strLeB b a = true) :
    a = b := by
  cases a; cases b
  exact congrArg String.mk (charListLe_antisymm _ _ h1 h2)

/-! ## Sorting object entries by key

`json.dumps(..., sort_keys=True)` serializes every object with its items
sorted by key (Python's stable `sorted`, code-point lexicographic).  The sort
is modelled by a stable insertion sort. -/

/-- Key-order on object entries, as used by `sort_keys=True`. -/
def entryLe (a b : String × Json) : Prop := strLeB a.1 b.1 = true

instance : DecidableRel entryLe := fun a b => by
  unfold entryLe; infer_instance

/-- Stable insertion of an entry into a key-sorted entry list. -/
def insertEntry (x : String × Json) : List (String × Json) → List (String × Json)
  | [] => [x]
  | y :: t => if strLeB x.1 y.1 then x :: y :: t else y :: insertEntry x t

/-- Stable insertion sort of object entries by key. -/
def sortEntries : List (String × Json) → List (String × Json)
  | [] => []
  | x :: t => insertEntry x (sortEntries t)

theorem insertEntry_perm (x : String × Json) :
    ∀ l, (insertEntry x l).Perm (x :: l)
  | [] => List.Perm.refl _
  | y :: t => by
    simp only [insertEntry]
    by_cases h : strLeB x.1 y.1 = true
    · simp [h]
    · simp only [h, if_neg]
      exact ((insertEntry_perm x t).cons y).trans (List.Perm.swap x y t)

theorem sortEntries_perm : ∀ l, (sortEntries l).Perm l
  | [] => List.Perm.refl _
  | x :: t =>
    (insertEntry_perm x (sortEntries t)).trans ((sortEntries_perm t).cons x)

theorem charListLe_trans :
    ∀ s t u, charListLe s t = true → charListLe t u = true → charListLe s u = true
  | [], _, _, _, _ => rfl
  | _ :: _, [], _, h, _ => by simp [charListLe] at h
  | _ :: _, _ :: _, [], _, h2 => by simp [charListLe] at h2
  | a :: s, b :: t, c :: u, h1, h2 => by
    simp only [charListLe] at h1 h2 ⊢
    rcases Nat.lt_trichotomy a.toNat b.toNat with hab | hab | hab
    · rcases Nat.lt_trichotomy b.toNat c.toNat with hbc | hbc | hbc
      · simp [Nat.lt_trans hab hbc]
      · simp [hbc ▸ hab]
      · simp [hbc, Nat.lt_asymm hbc] at h2
    · rw [if_neg (hab ▸ lt_irrefl _), if_neg (hab ▸ lt_irrefl _)] at h1
      rcases Nat.lt_trichotomy b.toNat c.toNat with hbc | hbc | hbc
      · simp [hab ▸ hbc]
      · rw [if_neg (hbc ▸ lt_irrefl _), if_neg (hbc ▸ lt_irrefl _)] at h2
        rw [if_neg (by omega : ¬ a.toNat < c.toNat), if_neg (by omega : ¬ c.toNat < a.toNat)]
        exact charListLe_trans s t u h1 h2
      · simp [hbc, Nat.lt_asymm hbc] at h2
    · simp [hab, Nat.lt_asymm hab] at h1

theorem strLeB_trans {a b c : String} (h1 : strLeB a b = true) (h2 : strLeB b c = true) :
    strLeB a c = true :=
  charListLe_trans a.data b.data c.data h1 h2

theorem mem_insertEntry {x z : String × Json} :
    ∀ {l}, z ∈ insertEntry x l → z = x ∨ z ∈ l := by
  intro l hz
  have := (insertEntry_perm x l).mem_iff.mp hz
  simpa using this

theorem insertEntry_sorted (x : String × Json) :
    ∀ l, List.Pairwise entryLe l → List.Pairwise entryLe (insertEntry x l)
  | [], _ => by simp [insertEntry, List.Pairwise]
  | y :: t, h => by
    simp only [insertEntry]
    rcases List.pairwise_cons.mp h with ⟨hy, ht⟩
    by_cases hxy : strLeB x.1 y.1 = true
    · simp only [hxy, if_pos]
      refine List.pairwise_cons.mpr ⟨?_, h⟩
      intro z hz
      rcases List.mem_cons.mp hz with hz | hz
      · exact hz ▸ hxy
      · exact strLeB_trans hxy (hy _ hz)
    · simp only [hxy, if_neg, Bool.not_eq_true]
      refine List.pairwise_cons.mpr ⟨?_, insertEntry_sorted x t ht⟩
      intro z hz
      rcases mem_insertEntry hz with hz | hz
      · rw [hz]
        rcases strLeB_total x.1 y.1 with h1 | h1
        · exact absurd h1 hxy
        · exact h1
      · exact hy _ hz

theorem sortEntries_sorted : ∀ l, List.Pairwise entryLe (sortEntries l)
  | [] => List.Pairwise.nil
  | x :: t => insertEntry_sorted x (sortEntries t) (sortEntries_sorted t)

/-- Strict-or-equal order on entries: antisymmetric as soon as keys are
distinct, which lets `List.eq_of_perm_of_sorted` conclude. -/
def entryLtEq (a b : String × Json) : Prop :=
  (strLeB a.1 b.1 = true ∧ a.1 ≠ b.1) ∨ a = b

theorem entryLtEq_antisymm : ∀ a b : String × Json, entryLtEq a b → entryLtEq b a → a = b := by
  rintro a b (⟨hab, hne⟩ | rfl) hba
  · rcases hba with ⟨hba, _⟩ | rfl
    · exact absurd (strLeB_antisymm hab hba) hne
    · rfl
  · rfl

theorem sortEntries_eq_of_perm {l l' : List (String × Json)}
    (hp : l.Perm l') (nd : (l.map Prod.fst).Nodup) :
    sortEntries l = sortEntries l' := by
  have hperm : (sortEntries l).Perm (sortEntries l') :=
    ((sortEntries_perm l).trans hp).trans (sortEntries_perm l').symm
  have ndl : ((sortEntries l).map Prod.fst).Nodup :=
    (((sortEntries_perm l).map Prod.fst).nodup_iff).mpr nd
  have ndl' : ((sortEntries l').map Prod.fst).Nodup :=
    ((hperm.map Prod.fst).nodup_iff).mp ndl
  have toLtEq : ∀ {m : List (String × Json)}, List.Pairwise entryLe m →
      (m.map Prod.fst).Nodup → List.Pairwise entryLtEq m := by
    intro m hs hn
    have hn' : List.Pairwise (fun a b : String × Json => a.1 ≠ b.1) m :=
      List.pairwise_map.mp hn
    exact (hs.and hn').imp (fun h => Or.inl h)
  exact @List.eq_of_perm_of_sorted _ entryLtEq ⟨entryLtEq_antisymm⟩ _ _ hperm
    (toLtEq (sortEntries_sorted l) ndl) (toLtEq (sortEntries_sorted l') ndl')

/-! ## JSON serialization: `json.dumps(x, sort_keys=True, separators=(",", ":"))`

Default `ensure_ascii=True` escaping: `\b \t \n \f \r \" \\` plus `\uXXXX`
(with surrogate pairs) for every code point outside `0x20`-`0x7e`. -/

/-- Lowercase hexadecimal digit character. -/
def nibChar (n : Nat) : Char :=
  if n < 10 then Char.ofNat (48 + n) else Char.ofNat (87 + n)

/-- Four lowercase hex digits of `n % 0x10000` (for `\uXXXX` escapes). -/
def hex4 (n : Nat) : List Char :=
  [nibChar (n / 4096 % 16), nibChar (n / 256 % 16), nibChar (n / 16 % 16), nibChar (n % 16)]

/-- The JSON escape of one character under `ensure_ascii=True`. -/
def escChar (c : Char) : List Char :=
  let n := c.toNat
  if c = '"' then ['\\', '"']
  else if c = '\\' then ['\\', '\\']
  else if n = 8 then ['\\', 'b']
  else if n = 9 then ['\\', 't']
  else if n = 10 then ['\\', 'n']
  else if n = 12 then ['\\', 'f']
  else if n = 13 then ['\\', 'r']
  else if 32 ≤ n ∧ n ≤ 126 then [c]
  else if n < 65536 then '\\' :: 'u' :: hex4 n
  else
    ('\\' :: 'u' :: hex4 (55296 + (n - 65536) / 1024)) ++
      ('\\' :: 'u' :: hex4 (56320 + (n - 65536) % 1024))

/-- JSON encoding of a string literal (quotes plus escaped body). -/
def encodeJsonString (s : String) : String :=
  String.mk ('"' :: ((s.data.map escChar).flatten ++ ['"']))

mutual

/-- Recursively sort every object's entries by key: the canonical form whose
plain emission equals Python's `json.dumps(..., sort_keys=True)` output. -/
def canon : Json → Json
  | .null => .null
  | .bool b => .bool b
  | .num n => .num n
  | .str s => .str s
  | .arr l => .arr (canonList l)
  | .obj l => .obj (sortEntries (canonEntries l))

/-- Canonicalize every element of an array. -/
def canonList : List Json → List Json
  | [] => []
  | j :: t => canon j :: canonList t

/-- Canonicalize every value of an object entry list. -/
def canonEntries : List (String × Json) → List (String × Json)
  | [] => []
  | (k, v) :: t => (k, canon v) :: canonEntries t

end

mutual

/-- Compact emission with separators `(",", ":")` (objects are emitted in
entry order; `canon` has already sorted them). -/
def emit : Json → String
  | .null => "null"
  | .bool b => if b then "true" else "false"
  | .num n => toString n
  | .str s => encodeJsonString s
  | .arr l => "[" ++ emitList l ++ "]"
  | .obj l => "\x7b" ++ emitEntries l ++ "\x7d"

/-- Comma-joined emission of array elements. -/
def emitList : List Json → String
  | [] => ""
  | [j] => emit j
  | j :: t => emit j ++ "," ++ emitList t

/-- Comma-joined emission of `key:value` pairs. -/
def emitEntries : List (String × Json) → String
  | [] => ""
  | [(k, v)] => encodeJsonString k ++ ":" ++ emit v
  | (k, v) :: t => encodeJsonString k ++ ":" ++ emit v ++ "," ++ emitEntries t

end

/-- Model of `json.dumps(x, sort_keys=True, separators=(",", ":"))`:
`sort_keys=True` recursively sorts each object's items by key before
emission. -/
def jsonDumpsSorted (j : Json) : String := emit (canon j)

/-! ## UTF-8 and SHA-256

`hashlib.sha256(content_json.encode("utf-8")).hexdigest()`, fully executable
over `Nat` bytes and 32-bit words represented as `Nat` reduced mod `2^32`. -/

/-- UTF-8 encoding of one character, as a list of byte values. -/
def charUtf8 (c : Char) : List Nat :=
  let n := c.toNat
  if n < 128 then [n]
  else if n < 2048 then [192 + n / 64, 128 + n % 64]
  else if n < 65536 then [224 + n / 4096, 128 + n / 64 % 64, 128 + n % 64]
  else [240 + n / 262144, 128 + n / 4096 % 64, 128 + n / 64 % 64, 128 + n % 64]

/-- UTF-8 bytes of a string. -/
def strUtf8 (s : String) : List Nat := (s.data.map charUtf8).flatten

/-- Reduce to a 32-bit word. -/
def w32 (n : Nat) : Nat := n % 4294967296

/-- 32-bit right rotation. -/
def rotr32 (k x : Nat) : Nat := w32 (Nat.lor (x >>> k) (x <<< (32 - k)))

/-- SHA-256 small sigma 0. -/
def ssig0 (x : Nat) : Nat := Nat.xor (Nat.xor (rotr32 7 x) (rotr32 18 x)) (x >>> 3)

/-- SHA-256 small sigma 1. -/
def ssig1 (x : Nat) : Nat := Nat.xor (Nat.xor (rotr32 17 x) (rotr32 19 x)) (x >>> 10)

/-- SHA-256 big sigma 0. -/
def bsig0 (x : Nat) : Nat := Nat.xor (Nat.xor (rotr32 2 x) (rotr32 13 x)) (rotr32 22 x)

/-- SHA-256 big sigma 1. -/
def bsig1 (x : Nat) : Nat := Nat.xor (Nat.xor (rotr32 6 x) (rotr32 11 x)) (rotr32 25 x)

/-- SHA-256 choice function. -/
def chF (x y z : Nat) : Nat := Nat.xor (Nat.land x y) (Nat.land (Nat.xor x 4294967295) z)

/-- SHA-256 majority function. -/
def majF (x y z : Nat) : Nat :=
  Nat.xor (Nat.xor (Nat.land x y) (Nat.land x z)) (Nat.land y z)

/-- SHA-256 round constants. -/
def shaK : List Nat :=
  [1116352408, 1899447441, 3049323471, 3921009573, 961987163, 1508970993,
   2453635748, 2870763221, 3624381080, 310598401, 607225278, 1426881987,
   1925078388, 2162078206, 2614888103, 3248222580, 3835390401, 4022224774,
   264347078, 604807628, 770255983, 1249150122, 1555081692, 1996064986,
   2554220882, 2821834349, 2952996808, 3210313671, 3336571891, 3584528711,
   113926993, 338241895, 666307205, 773529912, 1294757372, 1396182291,
   1695183700, 1986661051, 2177026350, 2456956037, 2730485921, 2820302411,
   3259730800, 3345764771, 3516065817, 3600352804, 4094571909, 275423344,
   430227734, 506948616, 659060556, 883997877, 958139571, 1322822218,
   1537002063, 1747873779, 1955562222, 2024104815, 2227730452, 2361852424,
   2428436474, 2756734187, 3204031479, 3329325298]

/-- SHA-256 initial hash state. -/
def shaH0 : List Nat :=
  [1779033703, 3144134277, 1013904242, 2773480762,
   1359893119, 2600822924, 528734635, 1541459225]

/-- Group bytes into big-endian 32-bit words. -/
def bytesToWords : List Nat → List Nat
  | b0 :: b1 :: b2 :: b3 :: t => (((b0 * 256 + b1) * 256 + b2) * 256 + b3) :: bytesToWords t
  | _ => []

/-- Extend a 16-word message block by `fuel` scheduled words. -/
def extendW : List Nat → Nat → List Nat
  | w, 0 => w
  | w, f + 1 =>
    let n := w.length
    let nw := w32 (w.getD (n - 16) 0 + ssig0 (w.getD (n - 15) 0) +
      w.getD (n - 7) 0 + ssig1 (w.getD (n - 2) 0))
    extendW (w ++ [nw]) f

/-- One SHA-256 compression round on the 8-word working state. -/
def shaRound (st : List Nat) (kw : Nat × Nat) : List Nat :=
  match st with
  | [a, b, c, d, e, f, g, h] =>
    let t1 := w32 (h + bsig1 e + chF e f g + kw.1 + kw.2)
    let t2 := w32 (bsig0 a + majF a b c)
    [w32 (t1 + t2), a, b, c, w32 (d + t1), e, f, g]
  | other => other

/-- Process one 64-byte block. -/
def shaProcessBlock (h : List Nat) (block : List Nat) : List Nat :=
  let w := extendW (bytesToWords block) 48
  let st := (shaK.zip w).foldl shaRound h
  List.zipWith (fun a b => w32 (a + b)) h st

/-- Big-endian 8-byte encoding of a length (in bits). -/
def be8 (n : Nat) : List Nat :=
  [n / 72057594037927936 % 256, n / 281474976710656 % 256,
   n / 1099511627776 % 256, n / 4294967296 % 256,
   n / 16777216 % 256, n / 65536 % 256, n / 256 % 256, n % 256]

/-- SHA-256 padding: `0x80`, zeros to 56 mod 64, 64-bit big-endian bit length. -/
def shaPad (msg : List Nat) : List Nat :=
  msg ++ [128] ++ List.replicate ((119 - msg.length % 64) % 64) 0 ++ be8 (msg.length * 8)

/-- Split into 64-byte chunks (structural fuel keeps this kernel-reducible). -/
def chunks64Fuel : Nat → List Nat → List (List Nat)
  | 0, _ => []
  | _, [] => []
  | f + 1, l => l.take 64 :: chunks64Fuel f (l.drop 64)

/-- Split a byte list into 64-byte chunks. -/
def chunks64 (l : List Nat) : List (List Nat) := chunks64Fuel l.length l

/-- SHA-256 digest of a byte list, as eight 32-bit words. -/
def sha256Words (msg : List Nat) : List Nat :=
  (chunks64 (shaPad msg)).foldl shaProcessBlock shaH0

/-- Eight lowercase hex digits of a 32-bit word. -/
def wordHex8 (w : Nat) : List Char :=
  [nibChar (w / 268435456 % 16), nibChar (w / 16777216 % 16),
   nibChar (w / 1048576 % 16), nibChar (w / 65536 % 16),
   nibChar (w / 4096 % 16), nibChar (w / 256 % 16),
   nibChar (w / 16 % 16), nibChar (w % 16)]

/-- Lowercase hexadecimal SHA-256 digest of a byte list
(`hashlib.sha256(...).hexdigest()`). -/
def sha256Hex (msg : List Nat) : String :=
  String.mk ((sha256Words msg).map wordHex8).flatten

/-- FIPS 180-4 test vector: the digest of the empty message. -/
theorem sha256Hex_empty :
    sha256Hex [] = "e3b0c44298fc1c149afbf4c8996fb92427ae41e4649b934ca495991b7852b855" := by
  decide

/-- FIPS 180-4 test vector: the digest of `"abc"`. -/
theorem sha256Hex_abc :
    sha256Hex (strUtf8 "abc") =
      "ba7816bf8f01cfea414140de5dae2223b00361a396177a9cb410ff61f20015ad" := by
  decide

/-! ## `NotebookService`: content hashing and persistence -/

/-- Normalization of one output entry list, from
`NotebookService._prepare_content_for_hashing`: `execution_count` is set to
`None`, `transient` is deleted, `metadata` is cleared to an empty dict; all
other entries are kept unchanged. -/
def cleanOutputEntries : List (String × Json) → List (String × Json)
  | [] => []
  | (k, v) :: t =>
    if k = "transient" then cleanOutputEntries t
    else if k = "execution_count" then (k, .null) :: cleanOutputEntries t
    else if k = "metadata" then (k, .obj []) :: cleanOutputEntries t
    else (k, v) :: cleanOutputEntries t

/-- Normalize one output: only dict outputs are rewritten
(`if not isinstance(output, dict): continue`). -/
def cleanOutput : Json → Json
  | .obj l => .obj (cleanOutputEntries l)
  | j => j

/-- The `outputs` component of a cell's projection:
`outputs = cell.get("outputs", [])`, kept (and normalized) only when it is a
non-empty list, otherwise `[]`. -/
def processedOutputs : Option Json → Json
  | some (.arr l) => if l.isEmpty then .arr [] else .arr (l.map cleanOutput)
  | _ => .arr []

/-- Per-cell projection `\x7b"source": ..., "outputs": ...\x7d`; non-dict
cells are skipped. -/
def processCells : List Json → List Json
  | [] => []
  | .obj l :: t =>
      .obj [("source", (lookupJ "source" l).getD (.str "")),
            ("outputs", processedOutputs (lookupJ "outputs" l))] :: processCells t
  | _ :: t => processCells t

/-- `NotebookService._prepare_content_for_hashing`: the cells-only projection,
falling back to the whole structure when there is no `cells` list. -/
def prepareContentForHashing (nb : Json) : Json :=
  match nb with
  | .obj l =>
    match lookupJ "cells" l with
    | some (.arr cells) => .arr (processCells cells)
    | _ => nb
  | _ => nb

/-- `NotebookService.generate_content_hash`: lowercase-hex SHA-256 of the
sorted compact JSON serialization of the prepared content. -/
def generate_content_hash (nb : Json) : String :=
  sha256Hex (strUtf8 (jsonDumpsSorted (prepareContentForHashing nb)))

/-- The unlock handler's hash-retry content: a copy of the document with the
`git_lock_sign` key deleted from its `metadata` dict (when both exist). -/
def stripGitLockSign (nb : Json) : Json :=
  match nb with
  | .obj l =>
    match lookupJ "metadata" l with
    | some (.obj m) =>
      if (lookupJ "git_lock_sign" m).isSome then
        .obj (setKeyJ "metadata" (.obj (delKeyJ "git_lock_sign" m)) l)
      else .obj l
    | _ => .obj l
  | j => j

/-- `NotebookService.get_signature_metadata`:
`notebook_content.get("metadata", \x7b\x7d).get("git_lock_sign")`; any
exception (non-dict content or metadata) is swallowed and yields `None`. -/
def get_signature_metadata (nb : Json) : Option Json :=
  match nb with
  | .obj l =>
    match lookupJ "metadata" l with
    | some (.obj m) => lookupJ "git_lock_sign" m
    | some _ => none
    | none => none
  | _ => none

/-- `NotebookService._save_notebook_file` path normalization: append
`.ipynb` when the path does not already end with it (the file is then written
at `os.path.abspath` of this string). -/
def effectiveSavePath (notebook_path : String) : String :=
  if strEndsWith notebook_path ".ipynb" then notebook_path
  else notebook_path ++ ".ipynb"

/-- A write to disk: the normalized target path and the serialized document. -/
structure FileWrite where
  path : String
  content : Json
  deriving Repr, DecidableEq

/-- `NotebookService.save_notebook_content`: write the document unchanged. -/
def save_notebook_content (notebook_path : String) (nb : Json) : FileWrite :=
  ⟨effectiveSavePath notebook_path, nb⟩

/-- The document written by `NotebookService.save_signature_metadata`: a copy
with `metadata.git_lock_sign` set to the given record. -/
def withSignatureMetadata (nb : Json) (md : Json) : Json :=
  match nb with
  | .obj l =>
    match lookupJ "metadata" l with
    | some (.obj m) => .obj (setKeyJ "metadata" (.obj (setKeyJ "git_lock_sign" md m)) l)
    | some other =>
      -- `updated_content["metadata"]["git_lock_sign"] = ...` on a non-dict
      -- value raises; `save_signature_metadata` swallows the exception and
      -- reports failure, so the document is left as it was.
      .obj (setKeyJ "metadata" other l)
    | none => .obj (setKeyJ "metadata" (.obj [("git_lock_sign", md)]) l)
  | j => j

/-- `NotebookService.save_signature_metadata`: write the document with the
signature-metadata record attached. -/
def save_signature_metadata (notebook_path : String) (nb : Json) (md : Json) : FileWrite :=
  ⟨effectiveSavePath notebook_path, withSignatureMetadata nb md⟩

/-- The document written by `NotebookService.remove_signature_metadata`: a
copy with `metadata.git_lock_sign` removed. -/
def withoutSignatureMetadata (nb : Json) : Json := stripGitLockSign nb

/-- `NotebookService.remove_signature_metadata`: write the document with the
signature metadata removed. -/
def remove_signature_metadata (notebook_path : String) (nb : Json) : FileWrite :=
  ⟨effectiveSavePath notebook_path, withoutSignatureMetadata nb⟩

/-! ## `GitService._is_commit_signed`: signature-status classification -/

/-- Result of a completed subprocess run. -/
structure CmdResult where
  returncode : Int
  stdout : String
  stderr : String
  deriving Repr, DecidableEq

/-- Outcome of a subprocess invocation: completion, `TimeoutExpired`, or any
other raised exception. -/
inductive CmdOutcome where
  | completed (r : CmdResult)
  | timedOut
  | raised
  deriving Repr, DecidableEq

/-- Python line-boundary characters recognized by `str.splitlines`. -/
def isLineBoundary (c : Char) : Bool :=
  c.toNat = 10 || c.toNat = 13 || c.toNat = 11 || c.toNat = 12 || c.toNat = 28 ||
    c.toNat = 29 || c.toNat = 30 || c.toNat = 133 || c.toNat = 8232 || c.toNat = 8233

/-- Worker for `str.splitlines` (no trailing empty line; `\r\n` is one
boundary). -/
def splitlinesAux : List Char → List Char → List String
  | [], acc => if acc.isEmpty then [] else [String.mk acc.reverse]
  | '\r' :: '\n' :: rest, acc => String.mk acc.reverse :: splitlinesAux rest []
  | c :: rest, acc =>
    if isLineBoundary c then String.mk acc.reverse :: splitlinesAux rest []
    else splitlinesAux rest (c :: acc)

/-- Python `s.splitlines()`. -/
def pySplitlines (s : String) : List String := splitlinesAux s.data []

/-- Python whitespace as stripped by `str.strip()` (ASCII plus the Latin-1
spaces; the git output stripped here is ASCII). -/
def pyIsSpace (c : Char) : Bool :=
  [9, 10, 11, 12, 13, 28, 29, 30, 31, 32, 133, 160].contains c.toNat

/-- Python `s.strip()`. -/
def pyStrip (s : String) : String :=
  String.mk ((s.data.dropWhile pyIsSpace).reverse.dropWhile pyIsSpace).reverse

/-- The code's line post-processing of the `%G?` output:
`[line.strip() for line in stdout.splitlines() if line.strip()]`, then the
last element if any. -/
def lastNonEmptyStrippedLine (s : String) : Option String :=
  (((pySplitlines s).map pyStrip).filter (fun l => !l.data.isEmpty)).getLast?

/-- `GitService._is_commit_signed`: run
`git show --show-signature --format=%G? -s <hash>` and classify its outcome.
Signed iff the run completed with return code 0 and the last non-empty
stripped stdout line is one of `G`, `U`, `X`, `Y`. -/
def isCommitSigned (outcome : CmdOutcome) : Bool :=
  match outcome with
  | .completed r =>
    if r.returncode = 0 then
      match lastNonEmptyStrippedLine r.stdout with
      | some last => last == "G" || last == "U" || last == "X" || last == "Y"
      | none => false
    else false
  | .timedOut => false
  | .raised => false

/-! ## `GPGService` and `UserService` -/

/-- A git operator identity resolved from `git config user.name`/`user.email`. -/
structure UserInfo where
  name : String
  email : String
  deriving Repr, DecidableEq

/-- One secret key in the GPG keyring, as listed by `gpg.list_keys(True)`. -/
structure SecretKey where
  keyid : String
  fingerprint : String
  deriving Repr, DecidableEq

/-- Observable state of the GPG backend. -/
structure GpgState where
  /-- `gpg.list_keys` succeeds (backend reachable); an exception anywhere in
  the service methods yields `False`. -/
  listKeysOk : Bool
  /-- the secret keys in the keyring. -/
  secretKeys : List SecretKey
  /-- whether `gpg.sign(test, keyid=k)` reports status `signature created`. -/
  signCreated : String → Bool

/-- `GPGService.is_gpg_available`: key listing succeeds. -/
def is_gpg_available (g : GpgState) : Bool := g.listKeysOk

/-- `GPGService.has_signing_key`: at least one secret key is listed. -/
def has_signing_key (g : GpgState) : Bool := g.listKeysOk && !g.secretKeys.isEmpty

/-- `GPGService.can_sign_with_key`: the key id is found among secret keys
(exact keyid match, or the fingerprint ends with the uppercased id) and a
real test-sign operation succeeds. -/
def can_sign_with_key (g : GpgState) (key_id : String) : Bool :=
  g.listKeysOk &&
    (g.secretKeys.any fun k =>
      k.keyid == key_id || strEndsWith k.fingerprint (asciiUpper key_id)) &&
    g.signCreated key_id

/-! ## `UnlockNotebookHandler.post` -/

/-- Python `str()` rendering of an optional value interpolated into an
f-string (`None` renders as `"None"`; identity and hash fields are strings in
practice, container rendering is simplified to the JSON emission). -/
def pyShowOpt : Option Json → String
  | none => "None"
  | some (.str s) => s
  | some (.bool true) => "True"
  | some (.bool false) => "False"
  | some .null => "None"
  | some (.num n) => toString n
  | some j => emit j

/-- Python `str()` of a JSON value (same conventions as `pyShowOpt`). -/
def pyShowJ (j : Json) : String := pyShowOpt (some j)

/-- Error message constants and builders, transcribed from `handlers.py`
(adjacent string literals concatenated). -/
def msgMissingPathOrContent : String := "Missing notebook_path or notebook_content"

/-- Unlock 400: not inside a git repository. -/
def msgNotGitRepoUnlock : String := "Notebook is not in a git repository"

/-- Unlock 400: no `git_lock_sign` metadata found. -/
def msgNoSignature : String := "No signature found in notebook"

/-- Generic 500 from the handlers' `except Exception` clause (the exception
text appended by the f-string is not modelled). -/
def msgInternalServerError : String := "Internal server error"

/-- Unlock 400: metadata lacks a commit hash. -/
def msgNoCommitHash : String := "No git commit hash found in signature metadata"

/-- Unlock 400: content-hash verification failed after the retry. -/
def msgContentModified : String := "Content has been modified since locking. Cannot unlock."

/-- Unlock success message when GPG verification passed. -/
def msgUnlockOkVerified : String :=
  "Notebook unlocked successfully after GPG signature verification"

/-- Unlock success-with-warning message when GPG verification failed. -/
def msgUnlockWarning (verifyError : String) : String :=
  "Notebook unlocked with warning: GPG signature verification failed (" ++ verifyError ++ ")"

/-- Unlock success message for locks that were never GPG signed. -/
def msgUnlockOkNotSigned : String := "Notebook unlocked successfully (was not GPG signed)"

/-- Unlock 400: referenced commit does not exist. -/
def msgCommitNotFound (commitHash : Json) : String :=
  "Git commit " ++ pyShowJ commitHash ++ " not found in repository"

/-- Unlock 400: current git identity unresolvable. -/
def msgCouldNotIdentifyUser : String :=
  "Could not identify unlocking user. Please configure git user.name and user.email."

/-- Unlock 403: identity mismatch; the message names both the current user
and the recorded original signer. -/
def identityMismatchMessage (u : UserInfo) (origName origEmail : Option Json) : String :=
  "Cannot unlock: Current git user (" ++ u.name ++ " <" ++ u.email ++
    ">) does not match original signer (" ++ pyShowOpt origName ++ " <" ++
    pyShowOpt origEmail ++ ">). Only the original signer can unlock this notebook."

/-- Unlock 403: GPG unavailable. -/
def msgGpgUnavailableUnlock : String :=
  "Cannot unlock GPG-signed notebook: GPG is not available. Please ensure GPG is installed and configured."

/-- Unlock 403: no secret keys. -/
def msgNoKeysUnlock : String :=
  "Cannot unlock GPG-signed notebook: No GPG signing keys available. Please ensure you have access to the GPG key used to sign this notebook."

/-- Unlock 403: signing key id of the original commit not extractable. -/
def msgNoKeyIdExtracted : String :=
  "Cannot unlock GPG-signed notebook: Unable to determine the GPG key used to sign the original commit."

/-- Unlock 403: no configured key (identity-matched disclosure variant). -/
def msgNoConfiguredKeyMatched (shortKey : String) : String :=
  "Cannot unlock GPG-signed notebook: No git signing key configured. Please configure a GPG key ending in " ++
    shortKey ++ " with: git config user.signingkey [YOUR_KEY_ID]"

/-- Unlock 403: no configured key (generic variant, no key material). -/
def msgNoConfiguredKeyGeneric : String :=
  "Cannot unlock GPG-signed notebook: You do not have access to the required GPG key. Please ensure you are the original signer with proper GPG configuration."

/-- Unlock 403: configured key does not match (disclosure variant). -/
def msgKeyMismatchMatched (shortOrig shortCur : String) : String :=
  "Cannot unlock GPG-signed notebook: Git signing key mismatch. Original commit was signed with key ending in " ++
    shortOrig ++ ", but current git configuration uses key ending in " ++ shortCur ++
    ". Please configure the correct key with: git config user.signingkey [YOUR_KEY_ID]"

/-- Unlock 403: configured key does not match (generic variant). -/
def msgKeyMismatchGeneric : String :=
  "Cannot unlock GPG-signed notebook: Git signing key configuration does not match. Please ensure you are the original signer with the correct GPG key configured."

/-- Unlock 403: capability test failed (disclosure variant). -/
def msgCannotSignMatched (shortKey : String) : String :=
  "Cannot unlock GPG-signed notebook: You do not have the private key ending in " ++
    shortKey ++ " required to unlock this notebook. Please ensure you have access to the correct GPG private key."

/-- Unlock 403: capability test failed (generic variant). -/
def msgCannotSignGeneric : String :=
  "Cannot unlock GPG-signed notebook: You do not have access to the required private key. Only the user with access to the original signing key can unlock this notebook."

/-- Unlock 403: final signature verification failed. -/
def msgFinalVerifyFailed (err : String) : String :=
  "Cannot unlock GPG-signed notebook: Final signature verification failed. Error: " ++ err

/-- Unlock 500: persisting the unlocked metadata failed. -/
def msgSaveUnlockFailed : String := "Failed to save updated notebook metadata."

/-- Responses written by the unlock handler: a success body or
`write_error_json(status, message)`. -/
inductive UnlockResponse where
  | ok (message : String) (signature_verification_passed : Bool)
      (was_gpg_signed : Bool) (commit_hash : Option String) (metadata : Json)
  | err (status : Nat) (message : String)
  deriving Repr, DecidableEq

/-- Verification steps and persistence actions performed by the unlock
handler, recorded in program order. -/
inductive UCheck where
  | hashFirst (h : String)
  | hashRetry (h : String)
  | verifyCommit
  | commitLookup
  | identityCheck
  | gpgAvail
  | hasKey
  | extractKeyId
  | configuredKey
  | keyMatch (configured original : String)
  | canSign (keyId : String)
  | finalVerify
  | saveMeta
  | autoCommit
  deriving Repr, DecidableEq

/-- The key-possession chain of checks (GPG availability, key inventory, key
extraction, configured key, key match, signing-capability test, final
verification). -/
def isKeyPossessionCheck : UCheck → Bool
  | .gpgAvail => true
  | .hasKey => true
  | .extractKeyId => true
  | .configuredKey => true
  | .keyMatch _ _ => true
  | .canSign _ => true
  | .finalVerify => true
  | _ => false

/-- Observable results of the external git/gpg calls an unlock request can
make (the same deterministic call is not repeated with different results). -/
structure UnlockEnv where
  /-- `GitService.is_git_repository` for the notebook path. -/
  isGitRepo : Bool
  /-- `UserService.get_user_info`. -/
  userInfo : Option UserInfo
  /-- validity result of `GitService.verify_commit_signature` for the
  recorded commit. -/
  verifyValid : Bool
  /-- error text reported when verification fails. -/
  verifyError : String
  /-- whether `GitService.get_commit_info` finds the recorded commit. -/
  commitExists : Bool
  /-- `GitService.get_commit_signing_key_id` for the recorded commit. -/
  commitSigningKeyId : Option String
  /-- `GPGService.get_configured_signing_key`. -/
  configuredSigningKey : Option String
  /-- state of the GPG backend. -/
  gpg : GpgState
  /-- `NotebookService.save_signature_metadata` succeeds. -/
  saveMetaOk : Bool
  /-- `GitService.commit_and_sign_file` for the unlock auto-commit. -/
  autoCommitResult : Option String
  /-- `NotebookService.get_current_timestamp`. -/
  timestamp : String

/-- An unlock request body. -/
structure UnlockRequest where
  notebook_path : String
  notebook_content : Json

/-- Request-shape and metadata gates of the unlock handler, up to (and
including) extracting `commit_hash` and `commit_signed`. -/
def unlockGates (env : UnlockEnv) (req : UnlockRequest) :
    Except UnlockResponse (List (String × Json) × Json × Bool) :=
  if req.notebook_path.data.isEmpty || !pyTruthy req.notebook_content then
    .error (.err 400 msgMissingPathOrContent)
  else if !env.isGitRepo then
    .error (.err 400 msgNotGitRepoUnlock)
  else
    match get_signature_metadata req.notebook_content with
    | none => .error (.err 400 msgNoSignature)
    | some md =>
      if !pyTruthy md then .error (.err 400 msgNoSignature)
      else
        match md with
        | .obj l =>
          let ch := lookupJ "commit_hash" l
          if !pyTruthyOpt ch then .error (.err 400 msgNoCommitHash)
          else
            .ok (l, ch.getD .null,
              pyTruthy ((lookupJ "commit_signed" l).getD (.bool false)))
        | _ =>
          -- `.get` on a truthy non-dict raises `AttributeError`, caught by
          -- the handler's generic `except Exception` clause.
          .error (.err 500 msgInternalServerError)

/-- Content-integrity phase: first hash comparison, then on mismatch exactly
one retry against the hash of the document with `git_lock_sign` stripped. -/
def unlockHashPhase (content : Json) (md : List (String × Json)) :
    List UCheck × Except UnlockResponse Unit :=
  let current := generate_content_hash content
  let stored := lookupJ "content_hash" md
  if some (Json.str current) = stored then ([.hashFirst current], .ok ())
  else
    let recalc := generate_content_hash (stripGitLockSign content)
    if some (Json.str recalc) = stored then
      ([.hashFirst current, .hashRetry recalc], .ok ())
    else
      ([.hashFirst current, .hashRetry recalc], .error (.err 400 msgContentModified))

/-- Signature-policy phase: re-verify a signed lock (failure downgrades to a
warning), or require the commit to exist for an unsigned lock (missing
commit is a hard 400). Returns `(signature_verification_passed, message)`. -/
def unlockSigPhase (env : UnlockEnv) (wasSigned : Bool) (ch : Json) :
    List UCheck × Except UnlockResponse (Bool × String) :=
  if wasSigned then
    if env.verifyValid then ([.verifyCommit], .ok (true, msgUnlockOkVerified))
    else ([.verifyCommit], .ok (false, msgUnlockWarning env.verifyError))
  else
    if env.commitExists then ([.commitLookup], .ok (true, msgUnlockOkNotSigned))
    else ([.commitLookup], .error (.err 400 (msgCommitNotFound ch)))

/-- The identity comparison of the unlock handler: current name and email
must both equal the recorded `user_name`/`user_email` values. -/
def userIdentityMatches (u : UserInfo) (md : List (String × Json)) : Bool :=
  lookupJ "user_name" md == some (.str u.name) &&
    lookupJ "user_email" md == some (.str u.email)

/-- Identity phase: resolve the current operator and require an exact match
with the recorded signer; mismatch is a 403 naming both identities. -/
def unlockIdentityPhase (env : UnlockEnv) (md : List (String × Json)) :
    List UCheck × Except UnlockResponse UserInfo :=
  match env.userInfo with
  | none => ([], .error (.err 400 msgCouldNotIdentifyUser))
  | some u =>
    if userIdentityMatches u md then ([.identityCheck], .ok u)
    else
      ([.identityCheck], .error (.err 403
        (identityMismatchMessage u (lookupJ "user_name" md) (lookupJ "user_email" md))))

/-- Suffix-tolerant key comparison from the unlock handler (step 4 of the
key chain). -/
def keysMatch (cfg orig : String) : Bool :=
  cfg == orig || strEndsWith cfg orig || strEndsWith orig cfg

/-- Key-possession phase (GPG-signed locks only): availability, inventory,
key-id extraction, configured key, suffix-tolerant match, capability test on
the original commit's key id, final signature verification. -/
def unlockKeyPhase (env : UnlockEnv) (u : UserInfo) (md : List (String × Json)) :
    List UCheck × Except UnlockResponse Unit :=
  if !is_gpg_available env.gpg then
    ([.gpgAvail], .error (.err 403 msgGpgUnavailableUnlock))
  else if !has_signing_key env.gpg then
    ([.gpgAvail, .hasKey], .error (.err 403 msgNoKeysUnlock))
  else if (env.commitSigningKeyId.getD "").data.isEmpty then
    ([.gpgAvail, .hasKey, .extractKeyId], .error (.err 403 msgNoKeyIdExtracted))
  else
    let orig := env.commitSigningKeyId.getD ""
    if (env.configuredSigningKey.getD "").data.isEmpty then
      let m := if userIdentityMatches u md then
          msgNoConfiguredKeyMatched (pyLastChars 4 orig)
        else msgNoConfiguredKeyGeneric
      ([.gpgAvail, .hasKey, .extractKeyId, .configuredKey], .error (.err 403 m))
    else
      let cfg := env.configuredSigningKey.getD ""
      if !keysMatch cfg orig then
        let m := if userIdentityMatches u md then
            msgKeyMismatchMatched (pyLastChars 8 orig) (pyLastChars 8 cfg)
          else msgKeyMismatchGeneric
        ([.gpgAvail, .hasKey, .extractKeyId, .configuredKey, .keyMatch cfg orig],
          .error (.err 403 m))
      else if !can_sign_with_key env.gpg orig then
        let m := if userIdentityMatches u md then
            msgCannotSignMatched (pyLastChars 4 orig)
          else msgCannotSignGeneric
        ([.gpgAvail, .hasKey, .extractKeyId, .configuredKey, .keyMatch cfg orig,
          .canSign orig], .error (.err 403 m))
      else if !env.verifyValid then
        ([.gpgAvail, .hasKey, .extractKeyId, .configuredKey, .keyMatch cfg orig,
          .canSign orig, .finalVerify],
          .error (.err 403 (msgFinalVerifyFailed env.verifyError)))
      else
        ([.gpgAvail, .hasKey, .extractKeyId, .configuredKey, .keyMatch cfg orig,
          .canSign orig, .finalVerify], .ok ())

/-- Finish phase: flip the metadata to unlocked, persist it, auto-commit, and
build the success body (auto-commit failure only appends a warning). -/
def unlockFinishPhase (env : UnlockEnv) (u : UserInfo) (md : List (String × Json))
    (msg : String) (sigPass wasSigned : Bool) : UnlockResponse × List UCheck :=
  let updated := setKeyJ "unlocked_by_user_email" (.str u.email)
    (setKeyJ "unlocked_by_user_name" (.str u.name)
      (setKeyJ "unlock_timestamp" (.str env.timestamp)
        (setKeyJ "locked" (.bool false) md)))
  if !env.saveMetaOk then (.err 500 msgSaveUnlockFailed, [.saveMeta])
  else
    match env.autoCommitResult with
    | none =>
      (.ok (msg ++ " (Warning: failed to auto-commit unlock)") sigPass wasSigned
        none (.obj updated), [.saveMeta, .autoCommit])
    | some h =>
      -- on success the commit hash is folded back into the metadata (the
      -- second save and amend do not change the response).
      (.ok msg sigPass wasSigned (some h)
        (.obj (setKeyJ "unlock_commit_hash" (.str h) updated)), [.saveMeta, .autoCommit])

/-- `UnlockNotebookHandler.post`: the full unlock pipeline, returning the
response and the trace of checks performed. -/
def unlockPost (env : UnlockEnv) (req : UnlockRequest) : UnlockResponse × List UCheck :=
  match unlockGates env req with
  | .error r => (r, [])
  | .ok (md, ch, ws) =>
    match unlockHashPhase req.notebook_content md with
    | (t1, .error r) => (r, t1)
    | (t1, .ok _) =>
      match unlockSigPhase env ws ch with
      | (t2, .error r) => (r, t1 ++ t2)
      | (t2, .ok (sigPass, msg)) =>
        match unlockIdentityPhase env md with
        | (t3, .error r) => (r, t1 ++ t2 ++ t3)
        | (t3, .ok u) =>
          if ws then
            match unlockKeyPhase env u md with
            | (t4, .error r) => (r, t1 ++ t2 ++ t3 ++ t4)
            | (t4, .ok _) =>
              let fin := unlockFinishPhase env u md msg sigPass ws
              (fin.1, t1 ++ t2 ++ t3 ++ t4 ++ fin.2)
          else
            let fin := unlockFinishPhase env u md msg sigPass ws
            (fin.1, t1 ++ t2 ++ t3 ++ fin.2)

/-! ## `LockNotebookHandler.post` -/

/-- Lock 400: missing commit message. -/
def msgMissingCommitMessage : String := "Missing commit_message for lock operation"

/-- Lock 400: not inside a git repository. -/
def msgNotGitRepoLock : String :=
  "Notebook is not in a git repository. Please initialize git repository first."

/-- Lock 400: git identity unresolvable. -/
def msgNoUserConfig : String :=
  "Git user configuration not found. Please configure git user.name and user.email"

/-- Lock 400: GPG backend unavailable. -/
def msgGpgRequiredLock : String :=
  "Cannot lock notebook: GPG is required for locking but not available. Please ensure GPG is installed and configured."

/-- Lock 400: no secret signing keys. -/
def msgNoKeysLock : String :=
  "Cannot lock notebook: No GPG signing keys available. Please ensure you have a GPG key configured for signing."

/-- Lock 400: no git signing key configured. -/
def msgNoConfiguredKeyLock : String :=
  "Cannot lock notebook: No git signing key configured. Please configure a GPG key with: git config user.signingkey [YOUR_KEY_ID]"

/-- Lock 400: capability test with the configured key failed. -/
def msgCannotSignLock : String :=
  "Cannot lock notebook: Cannot sign with configured GPG key. Please ensure you have access to the private key for signing."

/-- Lock 500: pre-commit save failed. -/
def msgSaveBeforeCommitFailed : String := "Failed to save notebook before committing."

/-- Lock 500: initial commit failed. -/
def msgCommitFailed (commitError : String) : String :=
  "Failed to commit notebook: " ++ commitError

/-- Lock 500: commit info unavailable after committing. -/
def msgCommitInfoFailed : String := "Failed to get commit information."

/-- Lock 400: unsigned commit detected and successfully rolled back. -/
def msgUnsignedRolledBack : String :=
  "Cannot lock notebook: GPG signature is required but the commit was not signed. Please ensure your GPG key is properly configured and accessible. The unsigned commit has been rolled back."

/-- Lock 500: unsigned commit detected and the rollback itself failed —
flagged as requiring manual intervention. -/
def msgRollbackFailed (rollbackError : String) : String :=
  "CRITICAL ERROR: Commit was created without required GPG signature and rollback failed. Manual intervention required. Rollback error: " ++ rollbackError

/-- Lock 500: post-commit metadata save failed. -/
def msgSaveMetadataFailed : String := "Failed to save notebook with signature metadata."

/-- Lock success message. -/
def msgLockSuccess : String := "Notebook locked and signed with git commit successfully"

/-- The signature-metadata dictionary built by the lock handler (step 5),
with its fields in dict-literal order. -/
structure SignatureMetadata where
  locked : Bool
  commit_hash : String
  commit_signed : Bool
  user_name : String
  user_email : String
  timestamp : String
  content_hash : String
  commit_message : String
  gpg_available : Bool
  deriving Repr, DecidableEq

/-- The metadata record as the JSON dict stored under
`metadata.git_lock_sign`. -/
def SignatureMetadata.toJson (m : SignatureMetadata) : Json :=
  .obj [("locked", .bool m.locked), ("commit_hash", .str m.commit_hash),
        ("commit_signed", .bool m.commit_signed), ("user_name", .str m.user_name),
        ("user_email", .str m.user_email), ("timestamp", .str m.timestamp),
        ("content_hash", .str m.content_hash), ("commit_message", .str m.commit_message),
        ("gpg_available", .bool m.gpg_available)]

/-- The fields of `GitService.get_commit_info` used by the handlers. -/
structure CommitInfoData where
  author_name : String
  author_email : String
  timestamp : String
  message : String
  signed : Bool
  deriving Repr, DecidableEq

/-- Responses written by the lock handler. -/
inductive LockResponse where
  | ok (message : String) (metadata : SignatureMetadata) (commit_hash : String) (signed : Bool)
  | err (status : Nat) (message : String)
  deriving Repr, DecidableEq

/-- HTTP status of a lock response, when it is an error. -/
def LockResponse.status : LockResponse → Option Nat
  | .err s _ => some s
  | .ok _ _ _ _ => none

/-- The `commit_signed` field of the returned metadata, when successful. -/
def LockResponse.metadataCommitSigned : LockResponse → Option Bool
  | .ok _ md _ _ => some md.commit_signed
  | .err _ _ => none

/-- The `commit_hash` field of the returned metadata, when successful. -/
def LockResponse.metadataCommitHash : LockResponse → Option String
  | .ok _ md _ _ => some md.commit_hash
  | .err _ _ => none

/-- Git-affecting actions (and the post-commit info probe) performed by the
lock handler, in program order. -/
inductive GitAction where
  | save (w : FileWrite)
  | commitFile (result : Option String)
  | probeCommitInfo (commitHash : String)
  | rollback (ok : Bool)
  | amendCommit (result : Option String)
  deriving Repr, DecidableEq

/-- Effect of one action on the commit stack (most recent first):
`git commit` pushes, `git reset --hard HEAD~1` pops, `git commit --amend`
replaces the head; probes and file saves leave it unchanged. -/
def applyGitAction (commits : List String) : GitAction → List String
  | .commitFile (some h) => h :: commits
  | .rollback true => commits.tail
  | .amendCommit (some h) => h :: commits.tail
  | _ => commits

/-- Fold a trace of git actions over an initial commit stack. -/
def applyGitActions (commits : List String) (acts : List GitAction) : List String :=
  acts.foldl applyGitAction commits

/-- Observable results of the external calls a lock request can make. -/
structure LockEnv where
  /-- `GitService.is_git_repository`. -/
  isGitRepo : Bool
  /-- `UserService.get_user_info`. -/
  userInfo : Option UserInfo
  /-- state of the GPG backend. -/
  gpg : GpgState
  /-- `GPGService.get_configured_signing_key`. -/
  configuredSigningKey : Option String
  /-- `NotebookService.save_notebook_content` succeeds. -/
  saveOk : Bool
  /-- commit hash from `GitService.commit_and_sign_file`, when successful. -/
  commitResult : Option String
  /-- error text when the initial commit fails. -/
  commitError : String
  /-- `GitService.get_commit_info` per commit hash. -/
  commitInfo : String → Option CommitInfoData
  /-- `GitService.rollback_last_commit` succeeds. -/
  rollbackOk : Bool
  /-- error text when the rollback fails. -/
  rollbackError : String
  /-- `NotebookService.save_signature_metadata` succeeds. -/
  saveMetaOk : Bool
  /-- new commit hash from `GitService.amend_commit_with_file`, when
  successful. -/
  amendResult : Option String

/-- A lock request body. -/
structure LockRequest where
  notebook_path : String
  notebook_content : Json
  commit_message : String

/-- `LockNotebookHandler.post`: the full lock pipeline, returning the
response and the trace of git actions performed. -/
def lockPost (env : LockEnv) (req : LockRequest) : LockResponse × List GitAction :=
  if req.notebook_path.data.isEmpty || !pyTruthy req.notebook_content then
    (.err 400 msgMissingPathOrContent, [])
  else if req.commit_message.data.isEmpty then
    (.err 400 msgMissingCommitMessage, [])
  else if !env.isGitRepo then
    (.err 400 msgNotGitRepoLock, [])
  else
    match env.userInfo with
    | none => (.err 400 msgNoUserConfig, [])
    | some _user =>
      if !is_gpg_available env.gpg then (.err 400 msgGpgRequiredLock, [])
      else if !has_signing_key env.gpg then (.err 400 msgNoKeysLock, [])
      else if (env.configuredSigningKey.getD "").data.isEmpty then
        (.err 400 msgNoConfiguredKeyLock, [])
      else if !can_sign_with_key env.gpg (env.configuredSigningKey.getD "") then
        (.err 400 msgCannotSignLock, [])
      else
        -- Step 1: content hash of the as-submitted document.
        let content_hash := generate_content_hash req.notebook_content
        -- Step 2: save the raw document.
        let save1 := save_notebook_content req.notebook_path req.notebook_content
        if !env.saveOk then (.err 500 msgSaveBeforeCommitFailed, [.save save1])
        else
          -- Step 3: stage and commit the file.
          if (env.commitResult.getD "").data.isEmpty then
            (.err 500 (msgCommitFailed env.commitError),
              [.save save1, .commitFile env.commitResult])
          else
            let commitHash0 := env.commitResult.getD ""
            -- Step 4: fetch the commit info (signature probe included).
            let acts0 := [.save save1, .commitFile env.commitResult,
              .probeCommitInfo commitHash0]
            match env.commitInfo commitHash0 with
            | none => (.err 500 msgCommitInfoFailed, acts0)
            | some info =>
              if !info.signed then
                -- Post-commit enforcement: unsigned commit, roll it back.
                let acts1 := acts0 ++ [.rollback env.rollbackOk]
                if env.rollbackOk then (.err 400 msgUnsignedRolledBack, acts1)
                else (.err 500 (msgRollbackFailed env.rollbackError), acts1)
              else
                -- Step 5: final signature metadata.
                let md : SignatureMetadata := {
                  locked := true
                  commit_hash := commitHash0
                  commit_signed := info.signed
                  user_name := info.author_name
                  user_email := info.author_email
                  timestamp := info.timestamp
                  content_hash := content_hash
                  commit_message := info.message
                  gpg_available := info.signed }
                -- Step 6: save the document with the metadata attached.
                let save2 := save_signature_metadata req.notebook_path
                  req.notebook_content md.toJson
                let acts2 := acts0 ++ [.save save2]
                if !env.saveMetaOk then (.err 500 msgSaveMetadataFailed, acts2)
                else
                  -- Step 7: amend the commit; failure is non-fatal.
                  if (env.amendResult.getD "").data.isEmpty then
                    (.ok msgLockSuccess md commitHash0 info.signed,
                      acts2 ++ [.amendCommit env.amendResult])
                  else
                    let newHash := env.amendResult.getD ""
                    (.ok msgLockSuccess { md with commit_hash := newHash } newHash
                      info.signed, acts2 ++ [.amendCommit env.amendResult])

/-- The `signed` field of the lock response body, when successful. -/
def LockResponse.signedFlag : LockResponse → Option Bool
  | .ok _ _ _ s => some s
  | .err _ _ => none

/-! ## Claim theorems -/

/-- C10: for every notebook path not ending in `.ipynb`, each persistence
operation (`save_notebook_content`, `save_signature_metadata`,
`remove_signature_metadata`) writes the document to `p ++ ".ipynb"` rather
than to `p`; paths already ending in `.ipynb` are written unmodified. -/
theorem c10_save_path_normalization (p : String) (nb md : Json) :
    (strEndsWith p ".ipynb" = false →
      (save_notebook_content p nb).path = p ++ ".ipynb" ∧
      (save_signature_metadata p nb md).path = p ++ ".ipynb" ∧
      (remove_signature_metadata p nb).path = p ++ ".ipynb") ∧
    (strEndsWith p ".ipynb" = true →
      (save_notebook_content p nb).path = p ∧
      (save_signature_metadata p nb md).path = p ∧
      (remove_signature_metadata p nb).path = p) := by
  constructor <;> intro h <;>
    simp [save_notebook_content, save_signature_metadata, remove_signature_metadata,
      effectiveSavePath, h]

/-- Witness for C10 at the concrete path `"nb"`. -/
theorem c10_witness :
    strEndsWith "nb" ".ipynb" = false ∧
      (save_notebook_content "nb" .null).path = "nb" ++ ".ipynb" :=
  ⟨by decide, ((c10_save_path_normalization "nb" .null .null).1 (by decide)).1⟩

/-- C8: the per-commit signed-status determination reports `signed = true`
exactly when the `git show --format=%G?` run completed with return code 0 and
the last non-empty (stripped) stdout line is one of the codes `G` (good),
`U` (untrusted but valid), `X` (expired key), `Y` (expired signature); any
other code, empty output, command failure, timeout or exception yields
`signed = false`. -/
theorem c8_signed_status_classification (o : CmdOutcome) :
    isCommitSigned o = true ↔
      ∃ r, o = .completed r ∧ r.returncode = 0 ∧
        ∃ code, lastNonEmptyStrippedLine r.stdout = some code ∧
          (code = "G" ∨ code = "U" ∨ code = "X" ∨ code = "Y") := by
  cases o with
  | completed r =>
    simp only [isCommitSigned]
    by_cases h : r.returncode = 0
    · rw [if_pos h]
      cases hl : lastNonEmptyStrippedLine r.stdout with
      | none =>
        simp only [Bool.false_eq_true, false_iff]
        rintro ⟨r', hr', _, code, hcode, _⟩
        rw [CmdOutcome.completed.injEq] at hr'
        rw [hr'] at hl
        rw [hl] at hcode
        exact Option.noConfusion hcode
      | some code =>
        constructor
        · intro hc
          refine ⟨r, rfl, h, code, hl, ?_⟩
          simp only [Bool.or_eq_true, beq_iff_eq] at hc
          tauto
        · rintro ⟨r', hr', _, code', hcode, hmem⟩
          rw [CmdOutcome.completed.injEq] at hr'
          rw [hr'] at hl
          rw [hl, Option.some.injEq] at hcode
          subst hcode
          simp only [Bool.or_eq_true, beq_iff_eq]
          tauto
    · rw [if_neg h]
      simp only [Bool.false_eq_true, false_iff]
      rintro ⟨r', hr', hret, _⟩
      rw [CmdOutcome.completed.injEq] at hr'
      exact h (hr' ▸ hret)
  | timedOut =>
    simp only [isCommitSigned, Bool.false_eq_true, false_iff]
    rintro ⟨r', hr', _⟩
    exact CmdOutcome.noConfusion hr'
  | raised =>
    simp only [isCommitSigned, Bool.false_eq_true, false_iff]
    rintro ⟨r', hr', _⟩
    exact CmdOutcome.noConfusion hr'

/-- C3: if any mandatory lock precondition fails (not a git repository,
identity unresolvable, GPG unavailable, no signing key, no configured git
signing key, or capability-test failure), the lock aborts with a 400 before
any file save, stage or commit: the git-action trace is empty, so folding it
over any commit stack (HEAD history) leaves it unchanged — zero commits. -/
theorem c3_lock_preconditions_abort (env : LockEnv) (req : LockRequest)
    (h : env.isGitRepo = false ∨ env.userInfo = none ∨
      is_gpg_available env.gpg = false ∨ has_signing_key env.gpg = false ∨
      (env.configuredSigningKey.getD "").data.isEmpty = true ∨
      can_sign_with_key env.gpg (env.configuredSigningKey.getD "") = false) :
    (lockPost env req).1.status = some 400 ∧ (lockPost env req).2 = [] ∧
      ∀ commits : List String, applyGitActions commits (lockPost env req).2 = commits := by
  have key : (lockPost env req).1.status = some 400 ∧ (lockPost env req).2 = [] := by
    by_cases h1 : (req.notebook_path.data.isEmpty || !pyTruthy req.notebook_content) = true
    · simp [lockPost, h1, LockResponse.status]
    · rw [Bool.not_eq_true] at h1
      by_cases h2 : req.commit_message.data.isEmpty = true
      · simp [lockPost, h1, h2, LockResponse.status]
      · rw [Bool.not_eq_true] at h2
        by_cases h3 : env.isGitRepo = true
        · cases hu : env.userInfo with
          | none => simp [lockPost, h1, h2, h3, hu, LockResponse.status]
          | some u =>
            by_cases h4 : is_gpg_available env.gpg = true
            · by_cases h5 : has_signing_key env.gpg = true
              · by_cases h6 : (env.configuredSigningKey.getD "").data.isEmpty = true
                · simp [lockPost, h1, h2, h3, hu, h4, h5, h6, LockResponse.status]
                · rw [Bool.not_eq_true] at h6
                  by_cases h7 :
                      can_sign_with_key env.gpg (env.configuredSigningKey.getD "") = true
                  · exfalso
                    rcases h with h | h | h | h | h | h
                    · rw [h3] at h; exact Bool.noConfusion h
                    · rw [hu] at h; exact Option.noConfusion h
                    · rw [h4] at h; exact Bool.noConfusion h
                    · rw [h5] at h; exact Bool.noConfusion h
                    · rw [h6] at h; exact Bool.noConfusion h
                    · rw [h7] at h; exact Bool.noConfusion h
                  · rw [Bool.not_eq_true] at h7
                    simp [lockPost, h1, h2, h3, hu, h4, h5, h6, h7, LockResponse.status]
              · rw [Bool.not_eq_true] at h5
                simp [lockPost, h1, h2, h3, hu, h4, h5, LockResponse.status]
            · rw [Bool.not_eq_true] at h4
              simp [lockPost, h1, h2, h3, hu, h4, LockResponse.status]
        · rw [Bool.not_eq_true] at h3
          simp [lockPost, h1, h2, h3, LockResponse.status]
  refine ⟨key.1, key.2, ?_⟩
  intro commits
  rw [key.2]
  rfl

/-- Test fixture: a lock environment whose GPG backend is unavailable. -/
def envC3 : LockEnv where
  isGitRepo := true
  userInfo := some ⟨"Alice", "alice@example.com"⟩
  gpg := ⟨false, [], fun _ => false⟩
  configuredSigningKey := some "ABCDEF1234567890"
  saveOk := true
  commitResult := some "c1"
  commitError := ""
  commitInfo := fun _ => none
  rollbackOk := true
  rollbackError := ""
  saveMetaOk := true
  amendResult := none

/-- Test fixture: a well-formed lock request. -/
def reqC3 : LockRequest where
  notebook_path := "demo.ipynb"
  notebook_content := .obj [("cells", .arr []), ("metadata", .obj [])]
  commit_message := "Lock demo"

/-- Witness for C3: with GPG unavailable, the lock request aborts with 400
and performs no git actions. -/
theorem c3_witness :
    (lockPost envC3 reqC3).1.status = some 400 ∧ (lockPost envC3 reqC3).2 = [] ∧
      ∀ commits : List String, applyGitActions commits (lockPost envC3 reqC3).2 = commits :=
  c3_lock_preconditions_abort envC3 reqC3 (Or.inr (Or.inr (Or.inl rfl)))

/-- C4: when the lock's commit is created but the post-commit probe reports
it unsigned, the handler invokes the rollback (hard reset one commit back);
if the rollback succeeds the caller gets a 400 whose message explicitly says
the unsigned commit has been rolled back and the commit stack is restored to
its pre-lock state, and if the rollback fails the caller gets a distinct 500
flagging that manual intervention is required. -/
theorem c4_unsigned_commit_rollback (env : LockEnv) (req : LockRequest) (u : UserInfo)
    (info : CommitInfoData)
    (hfields : (req.notebook_path.data.isEmpty || !pyTruthy req.notebook_content) = false)
    (hmsg : req.commit_message.data.isEmpty = false)
    (hrepo : env.isGitRepo = true)
    (huser : env.userInfo = some u)
    (hgpg : is_gpg_available env.gpg = true)
    (hkeys : has_signing_key env.gpg = true)
    (hcfg : (env.configuredSigningKey.getD "").data.isEmpty = false)
    (hcan : can_sign_with_key env.gpg (env.configuredSigningKey.getD "") = true)
    (hsave : env.saveOk = true)
    (hcommit : (env.commitResult.getD "").data.isEmpty = false)
    (hinfo : env.commitInfo (env.commitResult.getD "") = some info)
    (hunsigned : info.signed = false) :
    GitAction.rollback env.rollbackOk ∈ (lockPost env req).2 ∧
    (env.rollbackOk = true →
      (lockPost env req).1 = .err 400 msgUnsignedRolledBack ∧
      ∀ commits : List String,
        applyGitActions commits (lockPost env req).2 = commits) ∧
    (env.rollbackOk = false →
      (lockPost env req).1 = .err 500 (msgRollbackFailed env.rollbackError)) := by
  obtain ⟨ch, hch⟩ : ∃ ch, env.commitResult = some ch := by
    cases hr : env.commitResult with
    | none => rw [hr] at hcommit; simp [Option.getD] at hcommit
    | some ch => exact ⟨ch, rfl⟩
  have heval : lockPost env req =
      ((if env.rollbackOk then LockResponse.err 400 msgUnsignedRolledBack
        else LockResponse.err 500 (msgRollbackFailed env.rollbackError)),
       [.save (save_notebook_content req.notebook_path req.notebook_content),
        .commitFile env.commitResult,
        .probeCommitInfo (env.commitResult.getD ""),
        .rollback env.rollbackOk]) := by
    by_cases hrb : env.rollbackOk = true
    · simp [lockPost, hfields, hmsg, hrepo, huser, hgpg, hkeys, hcfg, hcan, hsave,
        hcommit, hinfo, hunsigned, hrb]
    · rw [Bool.not_eq_true] at hrb
      simp [lockPost, hfields, hmsg, hrepo, huser, hgpg, hkeys, hcfg, hcan, hsave,
        hcommit, hinfo, hunsigned, hrb]
  refine ⟨?_, ?_, ?_⟩
  · rw [heval]; simp
  · intro hrb
    rw [heval, hrb]
    refine ⟨by simp, ?_⟩
    intro commits
    rw [hch]
    simp [applyGitActions, applyGitAction]
  · intro hrb
    rw [heval, hrb]
    simp

/-- Test fixture: commit info reporting an unsigned commit. -/
def infoC4 : CommitInfoData where
  author_name := "Alice"
  author_email := "alice@example.com"
  timestamp := "2024-01-01T00:00:00"
  message := "Lock demo"
  signed := false

/-- Test fixture: a lock environment whose commit comes back unsigned and
whose rollback succeeds. -/
def envC4 : LockEnv where
  isGitRepo := true
  userInfo := some ⟨"Alice", "alice@example.com"⟩
  gpg := ⟨true, [⟨"KEY1", "AAAAKEY1"⟩], fun _ => true⟩
  configuredSigningKey := some "KEY1"
  saveOk := true
  commitResult := some "c1"
  commitError := ""
  commitInfo := fun h => if h = "c1" then some infoC4 else none
  rollbackOk := true
  rollbackError := ""
  saveMetaOk := true
  amendResult := none

/-- Witness for C4 at a concrete environment: the rollback action is
performed, the caller receives the explicit rolled-back 400, and the commit
stack is unchanged. -/
theorem c4_witness :
    GitAction.rollback envC4.rollbackOk ∈ (lockPost envC4 reqC3).2 ∧
    (envC4.rollbackOk = true →
      (lockPost envC4 reqC3).1 = .err 400 msgUnsignedRolledBack ∧
      ∀ commits : List String,
        applyGitActions commits (lockPost envC4 reqC3).2 = commits) ∧
    (envC4.rollbackOk = false →
      (lockPost envC4 reqC3).1 = .err 500 (msgRollbackFailed envC4.rollbackError)) :=
  c4_unsigned_commit_rollback envC4 reqC3 ⟨"Alice", "alice@example.com"⟩ infoC4
    (by decide) (by decide) rfl rfl rfl (by decide) (by decide) (by decide) rfl
    (by decide) rfl rfl

/-- Amended C5: after a successful amend the lock handler updates the
metadata's `commit_hash` to the amended commit's hash, but it does not
re-probe the amended commit's signed status: `commit_signed` (and the
response's `signed` flag) keep the value probed from the original commit,
and no commit-info probe of the amended hash is performed. -/
theorem c5_amended_no_reprobe_after_amend (env : LockEnv) (req : LockRequest)
    (u : UserInfo) (info : CommitInfoData)
    (hfields : (req.notebook_path.data.isEmpty || !pyTruthy req.notebook_content) = false)
    (hmsg : req.commit_message.data.isEmpty = false)
    (hrepo : env.isGitRepo = true)
    (huser : env.userInfo = some u)
    (hgpg : is_gpg_available env.gpg = true)
    (hkeys : has_signing_key env.gpg = true)
    (hcfg : (env.configuredSigningKey.getD "").data.isEmpty = false)
    (hcan : can_sign_with_key env.gpg (env.configuredSigningKey.getD "") = true)
    (hsave : env.saveOk = true)
    (hcommit : (env.commitResult.getD "").data.isEmpty = false)
    (hinfo : env.commitInfo (env.commitResult.getD "") = some info)
    (hsigned : info.signed = true)
    (hsavemeta : env.saveMetaOk = true)
    (hamend : (env.amendResult.getD "").data.isEmpty = false)
    (hne : env.amendResult.getD "" ≠ env.commitResult.getD "") :
    (lockPost env req).1.metadataCommitHash = some (env.amendResult.getD "") ∧
    (lockPost env req).1.metadataCommitSigned = some info.signed ∧
    (lockPost env req).1.signedFlag = some info.signed ∧
    GitAction.probeCommitInfo (env.amendResult.getD "") ∉ (lockPost env req).2 := by
  have heval : lockPost env req =
      (.ok msgLockSuccess
        { locked := true
          commit_hash := env.amendResult.getD ""
          commit_signed := info.signed
          user_name := info.author_name
          user_email := info.author_email
          timestamp := info.timestamp
          content_hash := generate_content_hash req.notebook_content
          commit_message := info.message
          gpg_available := info.signed }
        (env.amendResult.getD "") info.signed,
       [.save (save_notebook_content req.notebook_path req.notebook_content),
        .commitFile env.commitResult,
        .probeCommitInfo (env.commitResult.getD ""),
        .save (save_signature_metadata req.notebook_path req.notebook_content
          (SignatureMetadata.toJson
            { locked := true
              commit_hash := env.commitResult.getD ""
              commit_signed := info.signed
              user_name := info.author_name
              user_email := info.author_email
              timestamp := info.timestamp
              content_hash := generate_content_hash req.notebook_content
              commit_message := info.message
              gpg_available := info.signed })),
        .amendCommit env.amendResult]) := by
    simp [lockPost, hfields, hmsg, hrepo, huser, hgpg, hkeys, hcfg, hcan, hsave,
      hcommit, hinfo, hsigned, hsavemeta, hamend]
  refine ⟨?_, ?_, ?_, ?_⟩
  · rw [heval]; rfl
  · rw [heval, LockResponse.metadataCommitSigned, hsigned]
  · rw [heval, LockResponse.signedFlag, hsigned]
  · rw [heval]
    intro hmem
    simp only [List.mem_cons, List.mem_singleton] at hmem
    rcases hmem with h | h | h | h | h | h
    · exact GitAction.noConfusion h
    · exact GitAction.noConfusion h
    · exact hne (by injection h)
    · exact GitAction.noConfusion h
    · exact GitAction.noConfusion h
    · exact List.not_mem_nil _ h

/-- Test fixture: commit info for the original (signed) lock commit. -/
def infoC5 : CommitInfoData where
  author_name := "Alice"
  author_email := "alice@example.com"
  timestamp := "2024-01-01T00:00:00"
  message := "Lock demo"
  signed := true

/-- Test fixture: commit info for the amended commit, which is unsigned. -/
def infoC5amended : CommitInfoData where
  author_name := "Alice"
  author_email := "alice@example.com"
  timestamp := "2024-01-01T00:00:01"
  message := "Lock demo"
  signed := false

/-- Test fixture: lock environment where the amend succeeds but the amended
commit (`c2`) is unsigned according to the backend. -/
def envC5 : LockEnv where
  isGitRepo := true
  userInfo := some ⟨"Alice", "alice@example.com"⟩
  gpg := ⟨true, [⟨"KEY1", "AAAAKEY1"⟩], fun _ => true⟩
  configuredSigningKey := some "KEY1"
  saveOk := true
  commitResult := some "c1"
  commitError := ""
  commitInfo := fun h =>
    if h = "c1" then some infoC5 else if h = "c2" then some infoC5amended else none
  rollbackOk := true
  rollbackError := ""
  saveMetaOk := true
  amendResult := some "c2"

/-- Counterexample to C5 as stated: the amend succeeds, the backend reports
the amended commit `c2` unsigned, yet the returned metadata still carries
`commit_signed = true` from the pre-amend probe and the handler never probes
the amended commit's signed status. -/
theorem c5_counterexample :
    (envC5.commitInfo "c2").map CommitInfoData.signed = some false ∧
    (lockPost envC5 reqC3).1.metadataCommitHash = some "c2" ∧
    (lockPost envC5 reqC3).1.metadataCommitSigned = some true ∧
    (lockPost envC5 reqC3).1.signedFlag = some true ∧
    GitAction.probeCommitInfo "c2" ∉ (lockPost envC5 reqC3).2 := by
  refine ⟨rfl, rfl, rfl, rfl, ?_⟩
  decide

/-- Witness for the amended C5 at the concrete environment `envC5`. -/
theorem c5_witness :
    (lockPost envC5 reqC3).1.metadataCommitHash = some (envC5.amendResult.getD "") ∧
    (lockPost envC5 reqC3).1.metadataCommitSigned = some infoC5.signed ∧
    (lockPost envC5 reqC3).1.signedFlag = some infoC5.signed ∧
    GitAction.probeCommitInfo (envC5.amendResult.getD "") ∉ (lockPost envC5 reqC3).2 :=
  c5_amended_no_reprobe_after_amend envC5 reqC3 ⟨"Alice", "alice@example.com"⟩ infoC5
    (by decide) (by decide) rfl rfl rfl (by decide) (by decide) (by decide) rfl
    (by decide) rfl rfl rfl (by decide) (by decide)

/-- Boolean test for a retry-hash trace entry. -/
def isRetryCheck : UCheck → Bool
  | .hashRetry _ => true
  | _ => false

theorem unlockSigPhase_trace (env : UnlockEnv) (ws : Bool) (ch : Json) :
    (unlockSigPhase env ws ch).1 = [.verifyCommit] ∨
      (unlockSigPhase env ws ch).1 = [.commitLookup] := by
  cases ws
  · cases h : env.commitExists <;> simp [unlockSigPhase, h]
  · cases h : env.verifyValid <;> simp [unlockSigPhase, h]

theorem unlockIdentityPhase_trace (env : UnlockEnv) (md : List (String × Json)) :
    (unlockIdentityPhase env md).1 = [] ∨
      (unlockIdentityPhase env md).1 = [.identityCheck] := by
  cases h : env.userInfo with
  | none => simp [unlockIdentityPhase, h]
  | some u => cases h2 : userIdentityMatches u md <;> simp [unlockIdentityPhase, h, h2]

theorem unlockKeyPhase_trace_keychecks (env : UnlockEnv) (u : UserInfo)
    (md : List (String × Json)) :
    ∀ c ∈ (unlockKeyPhase env u md).1, isKeyPossessionCheck c = true := by
  cases h1 : is_gpg_available env.gpg <;>
    cases h2 : has_signing_key env.gpg <;>
    cases h3 : (env.commitSigningKeyId.getD "").data.isEmpty <;>
    cases h4 : (env.configuredSigningKey.getD "").data.isEmpty <;>
    cases h5 : keysMatch (env.configuredSigningKey.getD "") (env.commitSigningKeyId.getD "") <;>
    cases h6 : can_sign_with_key env.gpg (env.commitSigningKeyId.getD "") <;>
    cases h7 : env.verifyValid <;>
    simp [unlockKeyPhase, h1, h2, h3, h4, h5, h6, h7, isKeyPossessionCheck,
      List.forall_mem_cons]

theorem unlockFinishPhase_trace (env : UnlockEnv) (u : UserInfo)
    (md : List (String × Json)) (msg : String) (sp ws : Bool) :
    (unlockFinishPhase env u md msg sp ws).2 = [.saveMeta] ∨
      (unlockFinishPhase env u md msg sp ws).2 = [.saveMeta, .autoCommit] := by
  cases h : env.saveMetaOk
  · simp [unlockFinishPhase, h]
  · cases h2 : env.autoCommitResult <;> simp [unlockFinishPhase, h, h2]

theorem str_data_append (a b : String) : (a ++ b).data = a.data ++ b.data := rfl

theorem msgCommitNotFound_ne_contentModified (ch : Json) :
    msgCommitNotFound ch ≠ msgContentModified := by
  intro h
  have hd : (msgCommitNotFound ch).data.head? = msgContentModified.data.head? :=
    congrArg (fun s => s.data.head?) h
  have h1 : (msgCommitNotFound ch).data.head? = some 'G' := rfl
  have h2 : msgContentModified.data.head? = some 'C' := rfl
  rw [h1, h2] at hd
  simp at hd

theorem unlockSigPhase_error_shape (env : UnlockEnv) (ws : Bool) (ch : Json)
    (r : UnlockResponse) (h : (unlockSigPhase env ws ch).2 = .error r) :
    r = .err 400 (msgCommitNotFound ch) := by
  cases ws with
  | false =>
    cases h2 : env.commitExists <;> rw [unlockSigPhase] at h <;> simp [h2] at h
    exact h.symm
  | true =>
    cases h2 : env.verifyValid <;> rw [unlockSigPhase] at h <;> simp [h2] at h

theorem unlockIdentityPhase_error_shape (env : UnlockEnv) (md : List (String × Json))
    (r : UnlockResponse) (h : (unlockIdentityPhase env md).2 = .error r) :
    r = .err 400 msgCouldNotIdentifyUser ∨ ∃ u, r = .err 403
      (identityMismatchMessage u (lookupJ "user_name" md) (lookupJ "user_email" md)) := by
  cases hu : env.userInfo with
  | none =>
    rw [unlockIdentityPhase] at h
    simp [hu] at h
    exact Or.inl h.symm
  | some u =>
    rw [unlockIdentityPhase] at h
    cases h2 : userIdentityMatches u md <;> simp [hu, h2] at h
    exact Or.inr ⟨u, h.symm⟩

theorem unlockKeyPhase_error_shape (env : UnlockEnv) (u : UserInfo)
    (md : List (String × Json)) (r : UnlockResponse)
    (h : (unlockKeyPhase env u md).2 = .error r) : ∃ m, r = .err 403 m := by
  rw [unlockKeyPhase] at h
  cases h1 : is_gpg_available env.gpg <;>
    cases h2 : has_signing_key env.gpg <;>
    cases h3 : (env.commitSigningKeyId.getD "").data.isEmpty <;>
    cases h4 : (env.configuredSigningKey.getD "").data.isEmpty <;>
    cases h5 : keysMatch (env.configuredSigningKey.getD "") (env.commitSigningKeyId.getD "") <;>
    cases h6 : can_sign_with_key env.gpg (env.commitSigningKeyId.getD "") <;>
    cases h7 : env.verifyValid <;>
    simp [h1, h2, h3, h4, h5, h6, h7] at h <;>
    exact ⟨_, h.symm⟩

theorem unlockFinishPhase_not_contentModified (env : UnlockEnv) (u : UserInfo)
    (md : List (String × Json)) (msg : String) (sp ws : Bool) :
    (unlockFinishPhase env u md msg sp ws).1 ≠ .err 400 msgContentModified := by
  cases h : env.saveMetaOk
  · simp [unlockFinishPhase, h, msgSaveUnlockFailed, msgContentModified]
  · cases h2 : env.autoCommitResult <;> simp [unlockFinishPhase, h, h2]

/-- Once the content-hash check has passed, no later step of the unlock
pipeline can produce the content-modified abort. -/
theorem unlock_no_contentModified_after_hash_ok (env : UnlockEnv) (req : UnlockRequest)
    (md : List (String × Json)) (ch : Json) (ws : Bool)
    (hg : unlockGates env req = .ok (md, ch, ws))
    (hh : (unlockHashPhase req.notebook_content md).2 = .ok ()) :
    (unlockPost env req).1 ≠ .err 400 msgContentModified := by
  rcases h1 : unlockHashPhase req.notebook_content md with ⟨t1, r1⟩
  rw [h1] at hh
  simp only at hh
  subst hh
  rcases h2 : unlockSigPhase env ws ch with ⟨t2, r2⟩
  cases r2 with
  | error r =>
    have hr := unlockSigPhase_error_shape env ws ch r (by rw [h2])
    simp only [unlockPost, hg, h1, h2]
    rw [hr]
    intro hcontra
    rw [UnlockResponse.err.injEq] at hcontra
    exact msgCommitNotFound_ne_contentModified ch hcontra.2
  | ok pm =>
    obtain ⟨sp, m⟩ := pm
    rcases h3 : unlockIdentityPhase env md with ⟨t3, r3⟩
    cases r3 with
    | error r =>
      have hr := unlockIdentityPhase_error_shape env md r (by rw [h3])
      simp only [unlockPost, hg, h1, h2, h3]
      rcases hr with hr | ⟨u, hr⟩ <;> rw [hr] <;> intro hcontra <;>
        rw [UnlockResponse.err.injEq] at hcontra
      · exact absurd hcontra.2 (by decide)
      · exact absurd hcontra.1 (by decide)
    | ok u =>
      cases hws : ws with
      | true =>
        rw [hws] at hg h2
        rcases h4 : unlockKeyPhase env u md with ⟨t4, r4⟩
        cases r4 with
        | error r =>
          obtain ⟨m4, hr⟩ := unlockKeyPhase_error_shape env u md r (by rw [h4])
          simp only [unlockPost, hg, h1, h2, h3, h4, if_true]
          rw [hr]
          intro hcontra
          rw [UnlockResponse.err.injEq] at hcontra
          exact absurd hcontra.1 (by decide)
        | ok _ =>
          simp only [unlockPost, hg, h1, h2, h3, h4, if_true]
          exact unlockFinishPhase_not_contentModified env u md m sp true
      | false =>
        rw [hws] at hg h2
        simp only [unlockPost, hg, h1, h2, h3, Bool.false_eq_true, if_false]
        exact unlockFinishPhase_not_contentModified env u md m sp false

theorem isRetryCheck_false_of_keycheck (c : UCheck) (h : isKeyPossessionCheck c = true) :
    isRetryCheck c = false := by
  cases c <;> simp [isRetryCheck] <;> simp [isKeyPossessionCheck] at h

theorem unlockSigPhase_no_retry (env : UnlockEnv) (ws : Bool) (ch : Json) :
    ∀ c ∈ (unlockSigPhase env ws ch).1, isRetryCheck c = false := by
  rcases unlockSigPhase_trace env ws ch with h | h <;> rw [h] <;>
    simp [isRetryCheck]

theorem unlockIdentityPhase_no_retry (env : UnlockEnv) (md : List (String × Json)) :
    ∀ c ∈ (unlockIdentityPhase env md).1, isRetryCheck c = false := by
  rcases unlockIdentityPhase_trace env md with h | h <;> rw [h] <;>
    simp [isRetryCheck]

theorem unlockKeyPhase_no_retry (env : UnlockEnv) (u : UserInfo)
    (md : List (String × Json)) :
    ∀ c ∈ (unlockKeyPhase env u md).1, isRetryCheck c = false := by
  intro c hc
  exact isRetryCheck_false_of_keycheck c (unlockKeyPhase_trace_keychecks env u md c hc)

theorem unlockFinishPhase_no_retry (env : UnlockEnv) (u : UserInfo)
    (md : List (String × Json)) (msg : String) (sp ws : Bool) :
    ∀ c ∈ (unlockFinishPhase env u md msg sp ws).2, isRetryCheck c = false := by
  rcases unlockFinishPhase_trace env u md msg sp ws with h | h <;> rw [h] <;>
    simp [isRetryCheck]

/-- After a successful hash phase, the unlock trace is the hash-phase trace,
then the signature-policy trace, then a remainder that contains no further
hash computations. -/
theorem unlockPost_trace_after_hash (env : UnlockEnv) (req : UnlockRequest)
    (md : List (String × Json)) (ch : Json) (ws : Bool) (t1 : List UCheck)
    (hg : unlockGates env req = .ok (md, ch, ws))
    (h1 : unlockHashPhase req.notebook_content md = (t1, .ok ())) :
    ∃ rest, (unlockPost env req).2 = t1 ++ (unlockSigPhase env ws ch).1 ++ rest ∧
      ∀ c ∈ rest, isRetryCheck c = false := by
  rcases h2 : unlockSigPhase env ws ch with ⟨t2, r2⟩
  cases r2 with
  | error r =>
    refine ⟨[], ?_, by simp⟩
    simp only [unlockPost, hg, h1, h2, List.append_nil]
  | ok pm =>
    obtain ⟨sp, m⟩ := pm
    rcases h3 : unlockIdentityPhase env md with ⟨t3, r3⟩
    have ht3 : ∀ c ∈ t3, isRetryCheck c = false := by
      have := unlockIdentityPhase_no_retry env md
      rw [h3] at this
      exact this
    cases r3 with
    | error r =>
      refine ⟨t3, ?_, ht3⟩
      simp only [unlockPost, hg, h1, h2, h3, List.append_assoc]
    | ok u =>
      cases hws : ws with
      | true =>
        rw [hws] at hg h2
        rcases h4 : unlockKeyPhase env u md with ⟨t4, r4⟩
        have ht4 : ∀ c ∈ t4, isRetryCheck c = false := by
          have := unlockKeyPhase_no_retry env u md
          rw [h4] at this
          exact this
        cases r4 with
        | error r =>
          refine ⟨t3 ++ t4, ?_, ?_⟩
          · simp only [unlockPost, hg, h1, h2, h3, h4, if_true, List.append_assoc]
          · intro c hc
            rcases List.mem_append.mp hc with hc | hc
            · exact ht3 c hc
            · exact ht4 c hc
        | ok _ =>
          refine ⟨t3 ++ t4 ++ (unlockFinishPhase env u md m sp true).2, ?_, ?_⟩
          · simp only [unlockPost, hg, h1, h2, h3, h4, if_true, List.append_assoc]
          · intro c hc
            rcases List.mem_append.mp hc with hc | hc
            · rcases List.mem_append.mp hc with hc | hc
              · exact ht3 c hc
              · exact ht4 c hc
            · exact unlockFinishPhase_no_retry env u md m sp true c hc
      | false =>
        rw [hws] at hg h2
        refine ⟨t3 ++ (unlockFinishPhase env u md m sp false).2, ?_, ?_⟩
        · simp only [unlockPost, hg, h1, h2, h3, Bool.false_eq_true, if_false,
            List.append_assoc]
        · intro c hc
          rcases List.mem_append.mp hc with hc | hc
          · exact ht3 c hc
          · exact unlockFinishPhase_no_retry env u md m sp false c hc

/-- C2: for every unlock request that passes the request/metadata gates, if
the recomputed content hash differs from the stored `content_hash`, exactly
one retry is performed, recomputing the hash of the document with the
`git_lock_sign` key stripped; if the retry still differs the handler aborts
with the 400 content-modified error having performed no further checks, and
if the retry matches the pipeline proceeds to the signature-policy step and
can no longer produce the content-modified abort. -/
theorem c2_content_hash_retry (env : UnlockEnv) (req : UnlockRequest)
    (md : List (String × Json)) (ch : Json) (ws : Bool)
    (hg : unlockGates env req = .ok (md, ch, ws))
    (hmis : some (Json.str (generate_content_hash req.notebook_content)) ≠
      lookupJ "content_hash" md) :
    ((unlockPost env req).2.filter isRetryCheck) =
      [.hashRetry (generate_content_hash (stripGitLockSign req.notebook_content))] ∧
    (some (Json.str (generate_content_hash (stripGitLockSign req.notebook_content))) ≠
        lookupJ "content_hash" md →
      (unlockPost env req).1 = .err 400 msgContentModified ∧
      (unlockPost env req).2 =
        [.hashFirst (generate_content_hash req.notebook_content),
         .hashRetry (generate_content_hash (stripGitLockSign req.notebook_content))]) ∧
    (some (Json.str (generate_content_hash (stripGitLockSign req.notebook_content))) =
        lookupJ "content_hash" md →
      (unlockPost env req).1 ≠ .err 400 msgContentModified ∧
      (UCheck.verifyCommit ∈ (unlockPost env req).2 ∨
        UCheck.commitLookup ∈ (unlockPost env req).2)) := by
  by_cases h2 : some (Json.str (generate_content_hash (stripGitLockSign req.notebook_content))) =
      lookupJ "content_hash" md
  · -- retry hash matches the stored hash: the pipeline proceeds.
    have hhp : unlockHashPhase req.notebook_content md =
        ([.hashFirst (generate_content_hash req.notebook_content),
          .hashRetry (generate_content_hash (stripGitLockSign req.notebook_content))],
         .ok ()) := by
      simp [unlockHashPhase, hmis, h2]
    obtain ⟨rest, htr, hrest⟩ :=
      unlockPost_trace_after_hash env req md ch ws _ hg hhp
    refine ⟨?_, fun habs => absurd h2 habs, fun _ => ⟨?_, ?_⟩⟩
    · rw [htr]
      rw [List.filter_append, List.filter_append]
      have hsig : (unlockSigPhase env ws ch).1.filter isRetryCheck = [] :=
        List.filter_eq_nil_iff.mpr (by
          intro c hc
          simp [unlockSigPhase_no_retry env ws ch c hc])
      have hrest' : rest.filter isRetryCheck = [] :=
        List.filter_eq_nil_iff.mpr (by
          intro c hc
          simp [hrest c hc])
      rw [hsig, hrest']
      simp [List.filter, isRetryCheck]
    · exact unlock_no_contentModified_after_hash_ok env req md ch ws hg (by rw [hhp])
    · rw [htr]
      rcases unlockSigPhase_trace env ws ch with hs | hs <;> rw [hs]
      · left; simp
      · right; simp
  · -- retry hash still differs: terminal content-modified abort.
    have hhp : unlockHashPhase req.notebook_content md =
        ([.hashFirst (generate_content_hash req.notebook_content),
          .hashRetry (generate_content_hash (stripGitLockSign req.notebook_content))],
         .error (.err 400 msgContentModified)) := by
      simp [unlockHashPhase, hmis, h2]
    have hpost : unlockPost env req =
        (.err 400 msgContentModified,
         [.hashFirst (generate_content_hash req.notebook_content),
          .hashRetry (generate_content_hash (stripGitLockSign req.notebook_content))]) := by
      simp only [unlockPost, hg, hhp]
    refine ⟨?_, fun _ => ?_, fun habs => absurd habs h2⟩
    · rw [hpost]
      simp [List.filter, isRetryCheck]
    · rw [hpost]
      exact ⟨rfl, rfl⟩

/-- Test fixture: signature-metadata entries whose stored `content_hash` is
not even a string, so both hash comparisons fail. -/
def mdC2entries : List (String × Json) :=
  [("locked", .bool true), ("commit_hash", .str "c0"), ("commit_signed", .bool false),
   ("user_name", .str "Alice"), ("user_email", .str "alice@example.com"),
   ("content_hash", .num 1)]

/-- Test fixture: a notebook carrying `mdC2entries` as its lock metadata. -/
def contentC2 : Json :=
  .obj [("cells", .arr []),
        ("metadata", .obj [("kernelspec", .str "python3"),
                           ("git_lock_sign", .obj mdC2entries)])]

/-- Test fixture: an unlock request for `contentC2`. -/
def reqC2 : UnlockRequest where
  notebook_path := "demo.ipynb"
  notebook_content := contentC2

/-- Test fixture: a benign unlock environment. -/
def envC2 : UnlockEnv where
  isGitRepo := true
  userInfo := some ⟨"Alice", "alice@example.com"⟩
  verifyValid := true
  verifyError := ""
  commitExists := true
  commitSigningKeyId := some "ABCD1234ABCD1234"
  configuredSigningKey := some "ABCD1234ABCD1234"
  gpg := ⟨true, [⟨"ABCD1234ABCD1234", "FFFFABCD1234ABCD1234"⟩], fun _ => true⟩
  saveMetaOk := true
  autoCommitResult := some "c9"
  timestamp := "2024-01-02T00:00:00"

/-- Witness for C2 at a concrete mismatching request. -/
theorem c2_witness :
    unlockGates envC2 reqC2 = .ok (mdC2entries, .str "c0", false) ∧
    some (Json.str (generate_content_hash reqC2.notebook_content)) ≠
      lookupJ "content_hash" mdC2entries ∧
    ((unlockPost envC2 reqC2).2.filter isRetryCheck) =
      [.hashRetry (generate_content_hash (stripGitLockSign reqC2.notebook_content))] := by
  have h1 : unlockGates envC2 reqC2 = .ok (mdC2entries, .str "c0", false) := rfl
  have h2 : some (Json.str (generate_content_hash reqC2.notebook_content)) ≠
      lookupJ "content_hash" mdC2entries := by decide
  exact ⟨h1, h2, (c2_content_hash_retry envC2 reqC2 mdC2entries (.str "c0") false h1 h2).1⟩

theorem unlockHashPhase_no_keycheck (content : Json) (md : List (String × Json)) :
    ∀ c ∈ (unlockHashPhase content md).1, isKeyPossessionCheck c = false := by
  by_cases h1 : some (Json.str (generate_content_hash content)) = lookupJ "content_hash" md
  · simp [unlockHashPhase, h1, isKeyPossessionCheck]
  · by_cases h2 : some (Json.str (generate_content_hash (stripGitLockSign content))) =
        lookupJ "content_hash" md <;>
      simp [unlockHashPhase, h1, h2, isKeyPossessionCheck]

theorem unlockSigPhase_no_keycheck (env : UnlockEnv) (ws : Bool) (ch : Json) :
    ∀ c ∈ (unlockSigPhase env ws ch).1, isKeyPossessionCheck c = false := by
  rcases unlockSigPhase_trace env ws ch with h | h <;> rw [h] <;>
    simp [isKeyPossessionCheck]

/-- Amended C1: for every unlock request that has passed the content-hash
check and the signature-policy step (for an unsigned lock, the referenced
commit exists), if the resolved operator identity does not exactly match the
recorded `user_name`/`user_email`, the handler aborts with a 403 whose
message names both identities, and none of the key-possession checks are
performed, regardless of key availability. -/
theorem c1_identity_mismatch_403 (env : UnlockEnv) (req : UnlockRequest)
    (md : List (String × Json)) (ch : Json) (ws p : Bool) (m : String) (u : UserInfo)
    (hg : unlockGates env req = .ok (md, ch, ws))
    (hh : (unlockHashPhase req.notebook_content md).2 = .ok ())
    (hs : (unlockSigPhase env ws ch).2 = .ok (p, m))
    (hu : env.userInfo = some u)
    (hmis : userIdentityMatches u md = false) :
    (unlockPost env req).1 = .err 403
      ("Cannot unlock: Current git user (" ++ u.name ++ " <" ++ u.email ++
        ">) does not match original signer (" ++ pyShowOpt (lookupJ "user_name" md) ++
        " <" ++ pyShowOpt (lookupJ "user_email" md) ++
        ">). Only the original signer can unlock this notebook.") ∧
    ∀ c ∈ (unlockPost env req).2, isKeyPossessionCheck c = false := by
  rcases h1 : unlockHashPhase req.notebook_content md with ⟨t1, r1⟩
  rw [h1] at hh
  simp only at hh
  subst hh
  rcases h2 : unlockSigPhase env ws ch with ⟨t2, r2⟩
  rw [h2] at hs
  simp only at hs
  subst hs
  have hid : unlockIdentityPhase env md = ([.identityCheck],
      .error (.err 403 (identityMismatchMessage u (lookupJ "user_name" md)
        (lookupJ "user_email" md)))) := by
    simp [unlockIdentityPhase, hu, hmis]
  constructor
  · simp only [unlockPost, hg, h1, h2, hid]
    rfl
  · simp only [unlockPost, hg, h1, h2, hid]
    intro c hc
    rcases List.mem_append.mp hc with hc | hc
    · rcases List.mem_append.mp hc with hc | hc
      · have := unlockHashPhase_no_keycheck req.notebook_content md
        rw [h1] at this
        exact this c hc
      · have := unlockSigPhase_no_keycheck env ws ch
        rw [h2] at this
        exact this c hc
    · rcases List.mem_singleton.mp hc with rfl
      rfl

/-- Test fixture: the cells-only skeleton whose hash is stored at lock time. -/
def hashValC1 : String := generate_content_hash (.obj [("cells", .arr [])])

/-- Test fixture: metadata of an unsigned lock recorded for Alice, with the
genuine content hash stored. -/
def mdC1entries : List (String × Json) :=
  [("locked", .bool true), ("commit_hash", .str "c0"), ("commit_signed", .bool false),
   ("user_name", .str "Alice"), ("user_email", .str "alice@example.com"),
   ("content_hash", .str hashValC1)]

/-- Test fixture: the locked notebook carrying `mdC1entries`. -/
def contentC1 : Json :=
  .obj [("cells", .arr []), ("metadata", .obj [("git_lock_sign", .obj mdC1entries)])]

/-- Test fixture: an unlock request for `contentC1`. -/
def reqC1 : UnlockRequest where
  notebook_path := "demo.ipynb"
  notebook_content := contentC1

/-- Test fixture: Mallory (not the recorded signer) attempts the unlock and
the referenced commit no longer exists. -/
def envC1 : UnlockEnv where
  isGitRepo := true
  userInfo := some ⟨"Mallory", "mallory@example.com"⟩
  verifyValid := true
  verifyError := ""
  commitExists := false
  commitSigningKeyId := some "ABCD1234ABCD1234"
  configuredSigningKey := some "ABCD1234ABCD1234"
  gpg := ⟨true, [⟨"ABCD1234ABCD1234", "FFFFABCD1234ABCD1234"⟩], fun _ => true⟩
  saveMetaOk := true
  autoCommitResult := some "c9"
  timestamp := "2024-01-02T00:00:00"

/-- Counterexample to C1 as stated: the content-hash check passes on the
first attempt, the resolved identity (Mallory) does not match the recorded
signer (Alice), yet the handler aborts with 400 (missing commit), not 403:
for an unsigned lock whose commit is gone, the commit-existence step aborts
before the identity check. -/
theorem c1_counterexample :
    (unlockHashPhase reqC1.notebook_content mdC1entries).2 = .ok () ∧
    envC1.userInfo = some ⟨"Mallory", "mallory@example.com"⟩ ∧
    userIdentityMatches ⟨"Mallory", "mallory@example.com"⟩ mdC1entries = false ∧
    (unlockPost envC1 reqC1).1 = .err 400 (msgCommitNotFound (.str "c0")) ∧
    ∀ msg, (unlockPost envC1 reqC1).1 ≠ .err 403 msg := by
  have he : (unlockPost envC1 reqC1).1 = .err 400 (msgCommitNotFound (.str "c0")) := rfl
  refine ⟨rfl, rfl, by decide, he, ?_⟩
  intro msg hcontra
  rw [he, UnlockResponse.err.injEq] at hcontra
  exact absurd hcontra.1 (by decide)

/-- Test fixture: like `envC1` but the referenced commit still exists, so
the signature-policy step passes. -/
def envC1b : UnlockEnv where
  isGitRepo := true
  userInfo := some ⟨"Mallory", "mallory@example.com"⟩
  verifyValid := true
  verifyError := ""
  commitExists := true
  commitSigningKeyId := some "ABCD1234ABCD1234"
  configuredSigningKey := some "ABCD1234ABCD1234"
  gpg := ⟨true, [⟨"ABCD1234ABCD1234", "FFFFABCD1234ABCD1234"⟩], fun _ => true⟩
  saveMetaOk := true
  autoCommitResult := some "c9"
  timestamp := "2024-01-02T00:00:00"

/-- Witness for the amended C1: Mallory's attempt on Alice's lock is refused
with the 403 naming both identities, with no key-possession checks. -/
theorem c1_witness :
    (unlockPost envC1b reqC1).1 = .err 403
      ("Cannot unlock: Current git user (" ++
        (UserInfo.mk "Mallory" "mallory@example.com").name ++ " <" ++
        (UserInfo.mk "Mallory" "mallory@example.com").email ++
        ">) does not match original signer (" ++
        pyShowOpt (lookupJ "user_name" mdC1entries) ++ " <" ++
        pyShowOpt (lookupJ "user_email" mdC1entries) ++
        ">). Only the original signer can unlock this notebook.") ∧
    ∀ c ∈ (unlockPost envC1b reqC1).2, isKeyPossessionCheck c = false :=
  c1_identity_mismatch_403 envC1b reqC1 mdC1entries (.str "c0") false true
    msgUnlockOkNotSigned ⟨"Mallory", "mallory@example.com"⟩ rfl rfl rfl rfl (by decide)

theorem unlockFinishPhase_no_keycheck (env : UnlockEnv) (u : UserInfo)
    (md : List (String × Json)) (msg : String) (sp ws : Bool) :
    ∀ c ∈ (unlockFinishPhase env u md msg sp ws).2, isKeyPossessionCheck c = false := by
  rcases unlockFinishPhase_trace env u md msg sp ws with h | h <;> rw [h] <;>
    simp [isKeyPossessionCheck]

theorem getD_some_of_nonempty (o : Option String)
    (h : (o.getD "").data.isEmpty = false) : o = some (o.getD "") := by
  cases o with
  | none => simp [Option.getD] at h
  | some s => rfl

theorem unlockKeyPhase_canSign (env : UnlockEnv) (u : UserInfo)
    (md : List (String × Json)) (k : String)
    (h : UCheck.canSign k ∈ (unlockKeyPhase env u md).1) :
    env.commitSigningKeyId = some k ∧
    keysMatch (env.configuredSigningKey.getD "") k = true ∧
    UCheck.keyMatch (env.configuredSigningKey.getD "") k ∈ (unlockKeyPhase env u md).1 := by
  rw [unlockKeyPhase] at h ⊢
  cases h1 : is_gpg_available env.gpg with
  | false => simp [h1] at h
  | true =>
  cases h2 : has_signing_key env.gpg with
  | false => simp [h1, h2] at h
  | true =>
  cases h3 : (env.commitSigningKeyId.getD "").data.isEmpty with
  | true => simp [h1, h2, h3] at h
  | false =>
  cases h4 : (env.configuredSigningKey.getD "").data.isEmpty with
  | true => simp [h1, h2, h3, h4] at h
  | false =>
  cases h5 : keysMatch (env.configuredSigningKey.getD "") (env.commitSigningKeyId.getD "") with
  | false => simp [h1, h2, h3, h4, h5] at h
  | true =>
  cases h6 : can_sign_with_key env.gpg (env.commitSigningKeyId.getD "") with
  | false =>
    simp only [h1, h2, h3, h4, h5, h6, Bool.not_true, Bool.not_false,
      Bool.false_eq_true, if_false, if_true] at h ⊢
    simp at h
    subst h
    exact ⟨getD_some_of_nonempty _ h3, h5, by simp⟩
  | true =>
  cases h7 : env.verifyValid with
  | false =>
    simp only [h1, h2, h3, h4, h5, h6, h7, Bool.not_true, Bool.not_false,
      Bool.false_eq_true, if_false, if_true] at h ⊢
    simp at h
    subst h
    exact ⟨getD_some_of_nonempty _ h3, h5, by simp⟩
  | true =>
    simp only [h1, h2, h3, h4, h5, h6, h7, Bool.not_true, Bool.not_false,
      Bool.false_eq_true, if_false, if_true] at h ⊢
    simp at h
    subst h
    exact ⟨getD_some_of_nonempty _ h3, h5, by simp⟩

theorem unlockIdentityPhase_no_keycheck (env : UnlockEnv) (md : List (String × Json)) :
    ∀ c ∈ (unlockIdentityPhase env md).1, isKeyPossessionCheck c = false := by
  rcases unlockIdentityPhase_trace env md with h | h <;> rw [h] <;>
    simp [isKeyPossessionCheck]

/-- Amended C6: whenever the unlock pipeline performs the real-signing
capability test, it performs it on the original commit's signing key-id
(not on the configured key as such), and only after the configured key has
been confirmed to match that key-id under the suffix-tolerant comparison. -/
theorem c6_capability_test_on_original_key (env : UnlockEnv) (req : UnlockRequest)
    (k : String) (hmem : UCheck.canSign k ∈ (unlockPost env req).2) :
    env.commitSigningKeyId = some k ∧
    keysMatch (env.configuredSigningKey.getD "") k = true ∧
    UCheck.keyMatch (env.configuredSigningKey.getD "") k ∈ (unlockPost env req).2 := by
  have hkc : isKeyPossessionCheck (UCheck.canSign k) = true := rfl
  cases hg : unlockGates env req with
  | error r =>
    rw [unlockPost] at hmem
    simp [hg] at hmem
  | ok triple =>
    obtain ⟨md, ch, ws⟩ := triple
    rcases h1 : unlockHashPhase req.notebook_content md with ⟨t1, r1⟩
    have ht1 : ∀ c ∈ t1, isKeyPossessionCheck c = false := by
      have := unlockHashPhase_no_keycheck req.notebook_content md
      rw [h1] at this
      exact this
    cases r1 with
    | error r =>
      rw [unlockPost] at hmem
      simp only [hg, h1] at hmem
      exact absurd (ht1 _ hmem) (by rw [hkc]; simp)
    | ok _ =>
      rcases h2 : unlockSigPhase env ws ch with ⟨t2, r2⟩
      have ht2 : ∀ c ∈ t2, isKeyPossessionCheck c = false := by
        have := unlockSigPhase_no_keycheck env ws ch
        rw [h2] at this
        exact this
      cases r2 with
      | error r =>
        rw [unlockPost] at hmem
        simp only [hg, h1, h2] at hmem
        rcases List.mem_append.mp hmem with hc | hc
        · exact absurd (ht1 _ hc) (by rw [hkc]; simp)
        · exact absurd (ht2 _ hc) (by rw [hkc]; simp)
      | ok pm =>
        obtain ⟨sp, m⟩ := pm
        rcases h3 : unlockIdentityPhase env md with ⟨t3, r3⟩
        have ht3 : ∀ c ∈ t3, isKeyPossessionCheck c = false := by
          have := unlockIdentityPhase_no_keycheck env md
          rw [h3] at this
          exact this
        cases r3 with
        | error r =>
          rw [unlockPost] at hmem
          simp only [hg, h1, h2, h3] at hmem
          rcases List.mem_append.mp hmem with hc | hc
          · rcases List.mem_append.mp hc with hc | hc
            · exact absurd (ht1 _ hc) (by rw [hkc]; simp)
            · exact absurd (ht2 _ hc) (by rw [hkc]; simp)
          · exact absurd (ht3 _ hc) (by rw [hkc]; simp)
        | ok u =>
          cases hws : ws with
          | false =>
            rw [hws] at hg h2
            rw [unlockPost] at hmem
            simp only [hg, h1, h2, h3, Bool.false_eq_true, if_false] at hmem
            rcases List.mem_append.mp hmem with hc | hc
            · rcases List.mem_append.mp hc with hc | hc
              · rcases List.mem_append.mp hc with hc | hc
                · exact absurd (ht1 _ hc) (by rw [hkc]; simp)
                · exact absurd (ht2 _ hc) (by rw [hkc]; simp)
              · exact absurd (ht3 _ hc) (by rw [hkc]; simp)
            · exact absurd (unlockFinishPhase_no_keycheck env u md m sp false _ hc)
                (by rw [hkc]; simp)
          | true =>
            rw [hws] at hg h2
            rcases h4 : unlockKeyPhase env u md with ⟨t4, r4⟩
            have hkey : UCheck.canSign k ∈ t4 → env.commitSigningKeyId = some k ∧
                keysMatch (env.configuredSigningKey.getD "") k = true ∧
                UCheck.keyMatch (env.configuredSigningKey.getD "") k ∈ t4 := by
              intro hc
              have := unlockKeyPhase_canSign env u md k (by rw [h4]; exact hc)
              rw [h4] at this
              exact this
            cases r4 with
            | error r =>
              rw [unlockPost] at hmem
              simp only [hg, h1, h2, h3, h4, if_true] at hmem
              rw [unlockPost]
              simp only [hg, h1, h2, h3, h4, if_true]
              rcases List.mem_append.mp hmem with hc | hc
              · rcases List.mem_append.mp hc with hc | hc
                · rcases List.mem_append.mp hc with hc | hc
                  · exact absurd (ht1 _ hc) (by rw [hkc]; simp)
                  · exact absurd (ht2 _ hc) (by rw [hkc]; simp)
                · exact absurd (ht3 _ hc) (by rw [hkc]; simp)
              · obtain ⟨ha, hb, hcm⟩ := hkey hc
                exact ⟨ha, hb, by
                  refine List.mem_append.mpr (Or.inr hcm)⟩
            | ok _ =>
              rw [unlockPost] at hmem
              simp only [hg, h1, h2, h3, h4, if_true] at hmem
              rw [unlockPost]
              simp only [hg, h1, h2, h3, h4, if_true]
              rcases List.mem_append.mp hmem with hc | hc
              · rcases List.mem_append.mp hc with hc | hc
                · rcases List.mem_append.mp hc with hc | hc
                  · rcases List.mem_append.mp hc with hc | hc
                    · exact absurd (ht1 _ hc) (by rw [hkc]; simp)
                    · exact absurd (ht2 _ hc) (by rw [hkc]; simp)
                  · exact absurd (ht3 _ hc) (by rw [hkc]; simp)
                · obtain ⟨ha, hb, hcm⟩ := hkey hc
                  exact ⟨ha, hb, by
                    refine List.mem_append.mpr (Or.inl ?_)
                    refine List.mem_append.mpr (Or.inr hcm)⟩
              · exact absurd (unlockFinishPhase_no_keycheck env u md m sp true _ hc)
                  (by rw [hkc]; simp)

/-- Test fixture: metadata of a GPG-signed lock recorded for Alice. -/
def mdC6entries : List (String × Json) :=
  [("locked", .bool true), ("commit_hash", .str "c0"), ("commit_signed", .bool true),
   ("user_name", .str "Alice"), ("user_email", .str "alice@example.com"),
   ("content_hash", .str hashValC1)]

/-- Test fixture: the locked notebook carrying `mdC6entries`. -/
def contentC6 : Json :=
  .obj [("cells", .arr []), ("metadata", .obj [("git_lock_sign", .obj mdC6entries)])]

/-- Test fixture: an unlock request for `contentC6`. -/
def reqC6 : UnlockRequest where
  notebook_path := "demo.ipynb"
  notebook_content := contentC6

/-- Test fixture: Alice unlocks with a configured key (`AAAA90ABCDEF`) that
is a suffix-tolerant match of — but not equal to — the original commit's
key-id (`90ABCDEF`). -/
def envC6 : UnlockEnv where
  isGitRepo := true
  userInfo := some ⟨"Alice", "alice@example.com"⟩
  verifyValid := true
  verifyError := ""
  commitExists := true
  commitSigningKeyId := some "90ABCDEF"
  configuredSigningKey := some "AAAA90ABCDEF"
  gpg := ⟨true, [⟨"90ABCDEF", "AAAA90ABCDEF"⟩], fun _ => true⟩
  saveMetaOk := true
  autoCommitResult := some "c9"
  timestamp := "2024-01-02T00:00:00"

/-- Counterexample to C6 as stated: after the key match succeeds, the
capability test is invoked with the original commit's key-id `90ABCDEF`,
never with the currently configured key `AAAA90ABCDEF`. -/
theorem c6_counterexample :
    envC6.configuredSigningKey = some "AAAA90ABCDEF" ∧
    UCheck.keyMatch "AAAA90ABCDEF" "90ABCDEF" ∈ (unlockPost envC6 reqC6).2 ∧
    UCheck.canSign "90ABCDEF" ∈ (unlockPost envC6 reqC6).2 ∧
    UCheck.canSign "AAAA90ABCDEF" ∉ (unlockPost envC6 reqC6).2 := by
  refine ⟨rfl, ?_, ?_, ?_⟩ <;> decide

/-- Witness for the amended C6 at the concrete environment `envC6`. -/
theorem c6_witness :
    envC6.commitSigningKeyId = some "90ABCDEF" ∧
    keysMatch (envC6.configuredSigningKey.getD "") "90ABCDEF" = true ∧
    UCheck.keyMatch (envC6.configuredSigningKey.getD "") "90ABCDEF" ∈
      (unlockPost envC6 reqC6).2 :=
  c6_capability_test_on_original_key envC6 reqC6 "90ABCDEF" (by decide)

theorem prepare_cells_eval (l : List (String × Json)) (cs : List Json)
    (h : lookupJ "cells" l = some (.arr cs)) :
    prepareContentForHashing (.obj l) = .arr (processCells cs) := by
  simp [prepareContentForHashing, h]

theorem stripGitLockSign_obj (l : List (String × Json)) :
    ∃ l', stripGitLockSign (.obj l) = .obj l' ∧
      lookupJ "cells" l' = lookupJ "cells" l := by
  rw [stripGitLockSign]
  cases hm : lookupJ "metadata" l with
  | none => exact ⟨l, rfl, rfl⟩
  | some v =>
    cases v with
    | obj m =>
      by_cases hgls : (lookupJ "git_lock_sign" m).isSome
      · refine ⟨setKeyJ "metadata" (.obj (delKeyJ "git_lock_sign" m)) l, by simp [hgls], ?_⟩
        exact lookupJ_setKeyJ_ne "cells" "metadata" _ l (by decide)
      · exact ⟨l, by simp [hgls], rfl⟩
    | null => exact ⟨l, rfl, rfl⟩
    | bool b => exact ⟨l, rfl, rfl⟩
    | num n => exact ⟨l, rfl, rfl⟩
    | str s => exact ⟨l, rfl, rfl⟩
    | arr a => exact ⟨l, rfl, rfl⟩

/-- C9: for cell-bearing documents the content hash depends only on the
`cells` list — any two documents with the same `cells` value hash alike, so
changing, adding or removing document-level metadata (including
`git_lock_sign`) never changes the hash; consequently the unlock retry hash
(computed after stripping `git_lock_sign`) always equals the first hash, and
the retry can never turn a mismatch into a match: the handler aborts with
the content-modified 400. -/
theorem c9_hash_cells_only :
    (∀ (l l' : List (String × Json)) (cs : List Json),
      lookupJ "cells" l = some (.arr cs) → lookupJ "cells" l' = some (.arr cs) →
      generate_content_hash (.obj l) = generate_content_hash (.obj l')) ∧
    (∀ (l : List (String × Json)) (cs : List Json),
      lookupJ "cells" l = some (.arr cs) →
      generate_content_hash (stripGitLockSign (.obj l)) = generate_content_hash (.obj l)) ∧
    (∀ (env : UnlockEnv) (req : UnlockRequest) (md : List (String × Json))
      (ch : Json) (ws : Bool) (lc : List (String × Json)) (cs : List Json),
      unlockGates env req = .ok (md, ch, ws) →
      req.notebook_content = .obj lc → lookupJ "cells" lc = some (.arr cs) →
      some (Json.str (generate_content_hash req.notebook_content)) ≠
        lookupJ "content_hash" md →
      (unlockPost env req).1 = .err 400 msgContentModified) := by
  have part1 : ∀ (l l' : List (String × Json)) (cs : List Json),
      lookupJ "cells" l = some (.arr cs) → lookupJ "cells" l' = some (.arr cs) →
      generate_content_hash (.obj l) = generate_content_hash (.obj l') := by
    intro l l' cs h h'
    rw [generate_content_hash, generate_content_hash,
      prepare_cells_eval l cs h, prepare_cells_eval l' cs h']
  have part2 : ∀ (l : List (String × Json)) (cs : List Json),
      lookupJ "cells" l = some (.arr cs) →
      generate_content_hash (stripGitLockSign (.obj l)) =
        generate_content_hash (.obj l) := by
    intro l cs h
    obtain ⟨l', hl', hcells⟩ := stripGitLockSign_obj l
    rw [hl']
    exact part1 l' l cs (hcells.trans h) h
  refine ⟨part1, part2, ?_⟩
  intro env req md ch ws lc cs hg hlc hcells hmis
  have hstrip : generate_content_hash (stripGitLockSign req.notebook_content) =
      generate_content_hash req.notebook_content := by
    rw [hlc]
    exact part2 lc cs hcells
  have h2 : some (Json.str (generate_content_hash (stripGitLockSign req.notebook_content))) ≠
      lookupJ "content_hash" md := by
    rw [hstrip]
    exact hmis
  have hhp : unlockHashPhase req.notebook_content md =
      ([.hashFirst (generate_content_hash req.notebook_content),
        .hashRetry (generate_content_hash (stripGitLockSign req.notebook_content))],
       .error (.err 400 msgContentModified)) := by
    simp [unlockHashPhase, hmis, h2]
  simp only [unlockPost, hg, hhp]

/-- Witness for C9: stripping the signature metadata from the concrete
locked notebook `contentC1` does not change its hash. -/
theorem c9_witness :
    lookupJ "cells" [("cells", Json.arr []),
      ("metadata", Json.obj [("git_lock_sign", Json.obj mdC1entries)])] =
        some (.arr []) ∧
    generate_content_hash (stripGitLockSign contentC1) = generate_content_hash contentC1 :=
  ⟨by decide, c9_hash_cells_only.2.1 _ [] (by decide)⟩

/-! ## C7: properties of the content hash

The claim's "differ only in output execution-count fields or transient or
session output metadata" is formalized by the relations below: two documents
are related when they both carry `cells` lists of the same shape whose cells
agree on `source` and whose outputs agree entry-for-entry except possibly in
the values at the volatile keys `execution_count`, `transient` and
`metadata`. -/

/-- Output dict entries equal except possibly at the volatile keys. -/
def outEntriesVolEq : List (String × Json) → List (String × Json) → Bool
  | [], [] => true
  | (k, v) :: t, (k', v') :: u =>
    k == k' &&
      (k == "execution_count" || k == "transient" || k == "metadata" || beqJson v v') &&
      outEntriesVolEq t u
  | _, _ => false

/-- Two outputs equal up to volatile fields (non-dict outputs must be
equal, as the normalization leaves them untouched). -/
def outputVolEq (o o' : Json) : Bool :=
  match o, o' with
  | .obj a, .obj b => outEntriesVolEq a b
  | a, b => beqJson a b

/-- Pairwise `outputVolEq` on output lists (same length). -/
def outputsListVolEq : List Json → List Json → Bool
  | [], [] => true
  | a :: t, b :: u => outputVolEq a b && outputsListVolEq t u
  | _, _ => false

/-- The `outputs` fields of two related cells: both absent/non-list/equal,
or both lists related pairwise. -/
def outputsFieldVolEq : Option Json → Option Json → Bool
  | some (.arr a), some (.arr b) => outputsListVolEq a b
  | x, y => x == y

/-- Two cells equal up to volatile output fields: non-dict cells must be
equal (both are skipped); dict cells must agree on `source` and have
related `outputs`. -/
def cellVolEq (c c' : Json) : Bool :=
  match c, c' with
  | .obj a, .obj b =>
    lookupJ "source" a == lookupJ "source" b &&
      outputsFieldVolEq (lookupJ "outputs" a) (lookupJ "outputs" b)
  | a, b => beqJson a b

/-- Pairwise `cellVolEq`. -/
def cellsVolEq : List Json → List Json → Bool
  | [], [] => true
  | c :: t, c' :: u => cellVolEq c c' && cellsVolEq t u
  | _, _ => false

/-- Two documents both carrying `cells` lists related by `cellsVolEq`. -/
def docVolEq (d d' : Json) : Bool :=
  match d, d' with
  | .obj l, .obj l' =>
    match lookupJ "cells" l, lookupJ "cells" l' with
    | some (.arr cs), some (.arr cs') => cellsVolEq cs cs'
    | _, _ => false
  | _, _ => false

theorem cleanOutputEntries_volEq :
    ∀ a b, outEntriesVolEq a b = true → cleanOutputEntries a = cleanOutputEntries b
  | [], [], _ => rfl
  | [], _ :: _, h => by simp [outEntriesVolEq] at h
  | _ :: _, [], h => by simp [outEntriesVolEq] at h
  | (k, v) :: t, (k', v') :: u, h => by
    rw [outEntriesVolEq, Bool.and_eq_true, Bool.and_eq_true] at h
    obtain ⟨⟨hk, hv⟩, ht⟩ := h
    have hk' : k = k' := by simpa using hk
    subst hk'
    have ih := cleanOutputEntries_volEq t u ht
    by_cases h1 : k = "transient"
    · simp [cleanOutputEntries, h1, ih]
    · by_cases h2 : k = "execution_count"
      · simp [cleanOutputEntries, h1, h2, ih]
      · by_cases h3 : k = "metadata"
        · simp [cleanOutputEntries, h1, h2, h3, ih]
        · have hbv : beqJson v v' = true := by
            by_contra hbv
            rw [Bool.not_eq_true] at hbv
            simp [h1, h2, h3, hbv] at hv
          have hveq : v = v' := (beqJson_iff v v').mp hbv
          simp [cleanOutputEntries, h1, h2, h3, ih, hveq]

theorem cleanOutput_volEq (o o' : Json) (h : outputVolEq o o' = true) :
    cleanOutput o = cleanOutput o' := by
  cases o with
  | obj a =>
    cases o' with
    | obj b =>
      simp only [outputVolEq] at h
      simp only [cleanOutput]
      rw [cleanOutputEntries_volEq a b h]
    | null => simp [outputVolEq, beqJson] at h
    | bool x => simp [outputVolEq, beqJson] at h
    | num x => simp [outputVolEq, beqJson] at h
    | str x => simp [outputVolEq, beqJson] at h
    | arr x => simp [outputVolEq, beqJson] at h
  | null =>
    cases o' <;> simp only [outputVolEq] at h <;>
      first
      | rw [(beqJson_iff _ _).mp h]
      | simp [beqJson] at h
  | bool x =>
    cases o' <;> simp only [outputVolEq] at h <;>
      first
      | rw [(beqJson_iff _ _).mp h]
      | simp [beqJson] at h
  | num x =>
    cases o' <;> simp only [outputVolEq] at h <;>
      first
      | rw [(beqJson_iff _ _).mp h]
      | simp [beqJson] at h
  | str x =>
    cases o' <;> simp only [outputVolEq] at h <;>
      first
      | rw [(beqJson_iff _ _).mp h]
      | simp [beqJson] at h
  | arr x =>
    cases o' <;> simp only [outputVolEq] at h <;>
      first
      | rw [(beqJson_iff _ _).mp h]
      | simp [beqJson] at h

theorem outputsList_volEq_map :
    ∀ a b, outputsListVolEq a b = true → a.map cleanOutput = b.map cleanOutput
  | [], [], _ => rfl
  | [], _ :: _, h => by simp [outputsListVolEq] at h
  | _ :: _, [], h => by simp [outputsListVolEq] at h
  | x :: t, y :: u, h => by
    simp only [outputsListVolEq, Bool.and_eq_true] at h
    simp [List.map, cleanOutput_volEq x y h.1, outputsList_volEq_map t u h.2]

theorem outputsList_volEq_isEmpty :
    ∀ a b, outputsListVolEq a b = true → a.isEmpty = b.isEmpty
  | [], [], _ => rfl
  | [], _ :: _, h => by simp [outputsListVolEq] at h
  | _ :: _, [], h => by simp [outputsListVolEq] at h
  | _ :: _, _ :: _, _ => rfl

theorem processedOutputs_volEq (x y : Option Json) (h : outputsFieldVolEq x y = true) :
    processedOutputs x = processedOutputs y := by
  match x, y with
  | some (.arr a), some (.arr b) =>
    simp only [outputsFieldVolEq] at h
    simp only [processedOutputs, outputsList_volEq_isEmpty a b h]
    by_cases he : b.isEmpty
    · simp [he]
    · simp [he, outputsList_volEq_map a b h]
  | none, y =>
    simp only [outputsFieldVolEq, beq_iff_eq] at h
    rw [← h]
  | some (.null), y =>
    simp only [outputsFieldVolEq, beq_iff_eq] at h
    rw [← h]
  | some (.bool b), y =>
    simp only [outputsFieldVolEq, beq_iff_eq] at h
    rw [← h]
  | some (.num n), y =>
    simp only [outputsFieldVolEq, beq_iff_eq] at h
    rw [← h]
  | some (.str s), y =>
    simp only [outputsFieldVolEq, beq_iff_eq] at h
    rw [← h]
  | some (.obj l), y =>
    simp only [outputsFieldVolEq, beq_iff_eq] at h
    rw [← h]
  | some (.arr a), none =>
    simp [outputsFieldVolEq] at h
  | some (.arr a), some (.null) =>
    simp [outputsFieldVolEq] at h
  | some (.arr a), some (.bool b) =>
    simp [outputsFieldVolEq] at h
  | some (.arr a), some (.num n) =>
    simp [outputsFieldVolEq] at h
  | some (.arr a), some (.str s) =>
    simp [outputsFieldVolEq] at h
  | some (.arr a), some (.obj l) =>
    simp [outputsFieldVolEq] at h

theorem processCells_volEq :
    ∀ cs cs', cellsVolEq cs cs' = true → processCells cs = processCells cs'
  | [], [], _ => rfl
  | [], _ :: _, h => by simp [cellsVolEq] at h
  | _ :: _, [], h => by simp [cellsVolEq] at h
  | c :: t, c' :: u, h => by
    rw [cellsVolEq, Bool.and_eq_true] at h
    obtain ⟨hc, ht⟩ := h
    have ih := processCells_volEq t u ht
    cases c with
    | obj a =>
      cases c' with
      | obj b =>
        rw [cellVolEq, Bool.and_eq_true] at hc
        obtain ⟨hsrc, houts⟩ := hc
        have hsrc' : lookupJ "source" a = lookupJ "source" b := by simpa using hsrc
        simp only [processCells, hsrc', processedOutputs_volEq _ _ houts, ih]
      | null => simp [cellVolEq, beqJson] at hc
      | bool x => simp [cellVolEq, beqJson] at hc
      | num x => simp [cellVolEq, beqJson] at hc
      | str x => simp [cellVolEq, beqJson] at hc
      | arr x => simp [cellVolEq, beqJson] at hc
    | null =>
      have hcc : Json.null = c' := by
        cases c' with
        | null => rfl
        | bool b => simp [cellVolEq, beqJson] at hc
        | num n => simp [cellVolEq, beqJson] at hc
        | str s => simp [cellVolEq, beqJson] at hc
        | arr l => simp [cellVolEq, beqJson] at hc
        | obj l => simp [cellVolEq, beqJson] at hc
      rw [← hcc]
      simp [processCells, ih]
    | bool x =>
      have hcc : Json.bool x = c' := by
        cases c' with
        | bool b =>
          have hxb : x = b := by simpa [cellVolEq, beqJson] using hc
          rw [hxb]
        | null => simp [cellVolEq, beqJson] at hc
        | num n => simp [cellVolEq, beqJson] at hc
        | str s => simp [cellVolEq, beqJson] at hc
        | arr l => simp [cellVolEq, beqJson] at hc
        | obj l => simp [cellVolEq, beqJson] at hc
      rw [← hcc]
      simp [processCells, ih]
    | num x =>
      have hcc : Json.num x = c' := by
        cases c' with
        | num n =>
          have hxb : x = n := by simpa [cellVolEq, beqJson] using hc
          rw [hxb]
        | null => simp [cellVolEq, beqJson] at hc
        | bool b => simp [cellVolEq, beqJson] at hc
        | str s => simp [cellVolEq, beqJson] at hc
        | arr l => simp [cellVolEq, beqJson] at hc
        | obj l => simp [cellVolEq, beqJson] at hc
      rw [← hcc]
      simp [processCells, ih]
    | str x =>
      have hcc : Json.str x = c' := by
        cases c' with
        | str s =>
          have hxb : x = s := by simpa [cellVolEq, beqJson] using hc
          rw [hxb]
        | null => simp [cellVolEq, beqJson] at hc
        | bool b => simp [cellVolEq, beqJson] at hc
        | num n => simp [cellVolEq, beqJson] at hc
        | arr l => simp [cellVolEq, beqJson] at hc
        | obj l => simp [cellVolEq, beqJson] at hc
      rw [← hcc]
      simp [processCells, ih]
    | arr x =>
      have hcc : Json.arr x = c' := by
        cases c' with
        | arr l =>
          have hxb : x = l := (beqJsonList_iff _ _).mp
            (by simpa [cellVolEq, beqJson] using hc)
          rw [hxb]
        | null => simp [cellVolEq, beqJson] at hc
        | bool b => simp [cellVolEq, beqJson] at hc
        | num n => simp [cellVolEq, beqJson] at hc
        | str s => simp [cellVolEq, beqJson] at hc
        | obj l => simp [cellVolEq, beqJson] at hc
      rw [← hcc]
      simp [processCells, ih]

theorem hash_volEq (d d' : Json) (h : docVolEq d d' = true) :
    generate_content_hash d = generate_content_hash d' := by
  cases d with
  | null => simp [docVolEq] at h
  | bool b => simp [docVolEq] at h
  | num n => simp [docVolEq] at h
  | str s => simp [docVolEq] at h
  | arr l => simp [docVolEq] at h
  | obj l =>
    cases d' with
    | null => simp [docVolEq] at h
    | bool b => simp [docVolEq] at h
    | num n => simp [docVolEq] at h
    | str s => simp [docVolEq] at h
    | arr l' => simp [docVolEq] at h
    | obj l' =>
      simp only [docVolEq] at h
      split at h
      case h_2 => exact Bool.noConfusion h
      case h_1 cs cs' hc hc' =>
        rw [generate_content_hash, generate_content_hash, prepare_cells_eval l cs hc,
          prepare_cells_eval l' cs' hc', processCells_volEq cs cs' h]

theorem shaRound_length (st : List Nat) (kw : Nat × Nat) :
    (shaRound st kw).length = st.length := by
  rw [shaRound.eq_def]
  split
  · rfl
  · rfl

theorem foldl_shaRound_length : ∀ (l : List (Nat × Nat)) (st : List Nat),
    (l.foldl shaRound st).length = st.length
  | [], _ => rfl
  | p :: t, st => by
    rw [List.foldl_cons, foldl_shaRound_length t, shaRound_length]

theorem shaProcessBlock_length (h b : List Nat) (hl : h.length = 8) :
    (shaProcessBlock h b).length = 8 := by
  rw [shaProcessBlock, List.length_zipWith, foldl_shaRound_length, hl]
  simp

theorem foldl_shaProcessBlock_length : ∀ (cs : List (List Nat)) (h : List Nat),
    h.length = 8 → (cs.foldl shaProcessBlock h).length = 8
  | [], _, hl => hl
  | b :: t, h, hl => by
    rw [List.foldl_cons]
    exact foldl_shaProcessBlock_length t _ (shaProcessBlock_length h b hl)

theorem sha256Words_length (msg : List Nat) : (sha256Words msg).length = 8 :=
  foldl_shaProcessBlock_length _ _ rfl

theorem nibChar_mem_hexDigits (x : Nat) :
    nibChar (x % 16) ∈ ("0123456789abcdef" : String).data := by
  have h : x % 16 < 16 := Nat.mod_lt _ (by norm_num)
  set n := x % 16 with hn
  interval_cases n <;> decide

theorem wordHex8_mem (w : Nat) :
    ∀ c ∈ wordHex8 w, c ∈ ("0123456789abcdef" : String).data := by
  intro c hc
  rw [wordHex8] at hc
  simp only [List.mem_cons, List.not_mem_nil, or_false] at hc
  rcases hc with rfl | rfl | rfl | rfl | rfl | rfl | rfl | rfl <;>
    exact nibChar_mem_hexDigits _

theorem sha256Hex_hex_format (msg : List Nat) :
    (sha256Hex msg).data.length = 64 ∧
      ∀ c ∈ (sha256Hex msg).data, c ∈ ("0123456789abcdef" : String).data := by
  have hflat : ∀ ws : List Nat, ((ws.map wordHex8).flatten).length = 8 * ws.length := by
    intro ws
    induction ws with
    | nil => rfl
    | cons a t ih =>
      simp only [List.map_cons, List.flatten_cons, List.length_append, ih,
        List.length_cons]
      have h8 : (wordHex8 a).length = 8 := rfl
      omega
  constructor
  · show ((sha256Words msg).map wordHex8).flatten.length = 64
    rw [hflat, sha256Words_length]
  · intro c hc
    have hc' : c ∈ ((sha256Words msg).map wordHex8).flatten := hc
    rw [List.mem_flatten] at hc'
    obtain ⟨piece, hp, hcp⟩ := hc'
    rw [List.mem_map] at hp
    obtain ⟨w, _, rfl⟩ := hp
    exact wordHex8_mem w c hcp

mutual

/-- Documents equal up to reordering of object entries at any depth (keys on
the left object duplicate-free, so the reordering is unambiguous). -/
def JEq : Json → Json → Prop
  | .arr l, .arr l' => JEqList l l'
  | .obj l, .obj l' => ∃ m, (l.map Prod.fst).Nodup ∧ JEqEntries l m ∧ m.Perm l'
  | a, b => a = b

/-- Pointwise `JEq` on arrays. -/
def JEqList : List Json → List Json → Prop
  | [], [] => True
  | a :: t, b :: u => JEq a b ∧ JEqList t u
  | _, _ => False

/-- Pointwise key-equality and value-`JEq` on object entry lists. -/
def JEqEntries : List (String × Json) → List (String × Json) → Prop
  | [], [] => True
  | (k, v) :: t, (k', v') :: u => k = k' ∧ JEq v v' ∧ JEqEntries t u
  | _, _ => False

end

/-- `JEq` on optional values (dictionary lookups). -/
def OptJEq : Option Json → Option Json → Prop
  | none, none => True
  | some a, some b => JEq a b
  | _, _ => False

theorem jeqEntries_keys : ∀ l m, JEqEntries l m → l.map Prod.fst = m.map Prod.fst
  | [], [], _ => rfl
  | [], _ :: _, h => absurd h (by simp [JEqEntries])
  | _ :: _, [], h => absurd h (by simp [JEqEntries])
  | (k, v) :: t, (k', v') :: u, h => by
    simp only [JEqEntries] at h
    obtain ⟨hk, _, ht⟩ := h
    simp only [List.map_cons]
    rw [hk, jeqEntries_keys t u ht]

theorem jeqList_length : ∀ l l', JEqList l l' → l.length = l'.length
  | [], [], _ => rfl
  | [], _ :: _, h => absurd h (by simp [JEqList])
  | _ :: _, [], h => absurd h (by simp [JEqList])
  | _ :: t, _ :: u, h => by
    simp only [JEqList] at h
    simp only [List.length_cons, jeqList_length t u h.2]

theorem jeqEntries_lookup (k : String) :
    ∀ l m, JEqEntries l m → OptJEq (lookupJ k l) (lookupJ k m)
  | [], [], _ => trivial
  | [], _ :: _, h => absurd h (by simp [JEqEntries])
  | _ :: _, [], h => absurd h (by simp [JEqEntries])
  | (k0, v) :: t, (k0', v') :: u, h => by
    simp only [JEqEntries] at h
    obtain ⟨hk, hv, ht⟩ := h
    subst hk
    simp only [lookupJ]
    by_cases hkk : k0 = k
    · simp only [hkk, if_pos rfl]
      exact hv
    · simp only [if_neg hkk]
      exact jeqEntries_lookup k t u ht

theorem lookupJ_perm (k : String) {l l' : List (String × Json)} (hp : l.Perm l') :
    (l.map Prod.fst).Nodup → lookupJ k l = lookupJ k l' := by
  induction hp with
  | nil => intro _; rfl
  | cons x hp ih =>
    intro hnd
    obtain ⟨k0, v0⟩ := x
    simp only [lookupJ]
    by_cases hk : k0 = k
    · simp [hk]
    · rw [List.map_cons] at hnd
      simp only [if_neg hk]
      exact ih hnd.of_cons
  | swap x y l =>
    intro hnd
    obtain ⟨k1, v1⟩ := x
    obtain ⟨k2, v2⟩ := y
    simp only [lookupJ]
    by_cases h1 : k1 = k <;> by_cases h2 : k2 = k
    · exfalso
      simp only [List.map_cons, List.nodup_cons, List.mem_cons] at hnd
      exact hnd.1 (Or.inl (h2.trans h1.symm))
    · simp [h1, h2]
    · simp [h1, h2]
    · simp [h1, h2]
  | trans hp1 hp2 ih1 ih2 =>
    intro hnd
    rw [ih1 hnd, ih2 (((hp1.map Prod.fst).nodup_iff).mp hnd)]

theorem jeq_obj_lookup {l l' : List (String × Json)}
    (h : JEq (.obj l) (.obj l')) (k : String) :
    OptJEq (lookupJ k l) (lookupJ k l') := by
  simp only [JEq] at h
  obtain ⟨m, hnd, hent, hperm⟩ := h
  have h1 := jeqEntries_lookup k l m hent
  have hnd' : (m.map Prod.fst).Nodup := jeqEntries_keys l m hent ▸ hnd
  rw [lookupJ_perm k hperm hnd'] at h1
  exact h1

theorem canonEntries_map : ∀ l, canonEntries l = l.map (fun p => (p.1, canon p.2))
  | [] => rfl
  | (k, v) :: t => by
    simp only [canonEntries, List.map_cons]
    rw [canonEntries_map t]

mutual

theorem jeq_canon : ∀ j j', JEq j j' → canon j = canon j'
  | .null, j', h => by
    cases j' <;> simp only [JEq] at h <;> first | rfl | rw [h]
  | .bool _, j', h => by
    cases j' <;> simp only [JEq] at h <;> first | rfl | rw [h]
  | .num _, j', h => by
    cases j' <;> simp only [JEq] at h <;> first | rfl | rw [h]
  | .str _, j', h => by
    cases j' <;> simp only [JEq] at h <;> first | rfl | rw [h]
  | .arr l, j', h => by
    cases j' <;> simp only [JEq] at h
    case arr l' =>
      simp only [canon]
      rw [jeq_canonList l l' h]
    all_goals exact Json.noConfusion h
  | .obj l, j', h => by
    cases j' <;> simp only [JEq] at h
    case obj l' =>
      obtain ⟨m, hnd, hent, hperm⟩ := h
      simp only [canon]
      rw [jeq_canonEntries l m hent]
      congr 1
      apply sortEntries_eq_of_perm
      · rw [canonEntries_map, canonEntries_map]
        exact hperm.map _
      · have hkm : (canonEntries m).map Prod.fst = m.map Prod.fst := by
          rw [canonEntries_map, List.map_map]
          rfl
        rw [hkm]
        exact jeqEntries_keys l m hent ▸ hnd
    all_goals exact Json.noConfusion h

theorem jeq_canonList : ∀ l l', JEqList l l' → canonList l = canonList l'
  | [], [], _ => rfl
  | [], _ :: _, h => absurd h (by simp [JEqList])
  | _ :: _, [], h => absurd h (by simp [JEqList])
  | a :: t, b :: u, h => by
    simp only [JEqList] at h
    simp only [canonList]
    rw [jeq_canon a b h.1, jeq_canonList t u h.2]

theorem jeq_canonEntries : ∀ l m, JEqEntries l m → canonEntries l = canonEntries m
  | [], [], _ => rfl
  | [], _ :: _, h => absurd h (by simp [JEqEntries])
  | _ :: _, [], h => absurd h (by simp [JEqEntries])
  | (k, v) :: t, (k', v') :: u, h => by
    simp only [JEqEntries] at h
    obtain ⟨hk, hv, ht⟩ := h
    simp only [canonEntries]
    rw [hk, jeq_canon v v' hv, jeq_canonEntries t u ht]

end

theorem jeq_obj_nil : JEq (.obj []) (.obj []) := by
  simp only [JEq]
  exact ⟨[], by simp, by simp [JEqEntries], List.Perm.nil⟩

/-- `cleanOutputEntries` as a `filterMap`, to transport permutations. -/
def cleanEntryF (p : String × Json) : Option (String × Json) :=
  if p.1 = "transient" then none
  else if p.1 = "execution_count" then some (p.1, .null)
  else if p.1 = "metadata" then some (p.1, .obj [])
  else some p

theorem cleanOutputEntries_eq_filterMap :
    ∀ l, cleanOutputEntries l = l.filterMap cleanEntryF
  | [] => rfl
  | (k, v) :: t => by
    simp only [cleanOutputEntries, List.filterMap_cons, cleanEntryF]
    by_cases h1 : k = "transient" <;> by_cases h2 : k = "execution_count" <;>
      by_cases h3 : k = "metadata" <;>
      simp [h1, h2, h3, cleanOutputEntries_eq_filterMap t]

theorem cleanOutputEntries_keys_sublist :
    ∀ l : List (String × Json),
      List.Sublist ((cleanOutputEntries l).map Prod.fst) (l.map Prod.fst)
  | [] => List.Sublist.refl _
  | (k, v) :: t => by
    simp only [cleanOutputEntries]
    by_cases h1 : k = "transient"
    · simp only [if_pos h1, List.map_cons]
      exact (cleanOutputEntries_keys_sublist t).cons _
    · by_cases h2 : k = "execution_count"
      · simp only [if_neg h1, if_pos h2, List.map_cons]
        exact (cleanOutputEntries_keys_sublist t).cons₂ _
      · by_cases h3 : k = "metadata"
        · simp only [if_neg h1, if_neg h2, if_pos h3, List.map_cons]
          exact (cleanOutputEntries_keys_sublist t).cons₂ _
        · simp only [if_neg h1, if_neg h2, if_neg h3, List.map_cons]
          exact (cleanOutputEntries_keys_sublist t).cons₂ _

theorem jeq_cleanOutputEntries :
    ∀ l m, JEqEntries l m → JEqEntries (cleanOutputEntries l) (cleanOutputEntries m)
  | [], [], _ => by simp [cleanOutputEntries, JEqEntries]
  | [], _ :: _, h => absurd h (by simp [JEqEntries])
  | _ :: _, [], h => absurd h (by simp [JEqEntries])
  | (k, v) :: t, (k', v') :: u, h => by
    simp only [JEqEntries] at h
    obtain ⟨hk, hv, ht⟩ := h
    subst hk
    simp only [cleanOutputEntries]
    by_cases h1 : k = "transient"
    · simp only [if_pos h1]
      exact jeq_cleanOutputEntries t u ht
    · by_cases h2 : k = "execution_count"
      · simp only [if_neg h1, if_pos h2, JEqEntries]
        exact ⟨trivial, by simp [JEq], jeq_cleanOutputEntries t u ht⟩
      · by_cases h3 : k = "metadata"
        · simp only [if_neg h1, if_neg h2, if_pos h3, JEqEntries]
          exact ⟨trivial, jeq_obj_nil, jeq_cleanOutputEntries t u ht⟩
        · simp only [if_neg h1, if_neg h2, if_neg h3, JEqEntries]
          exact ⟨trivial, hv, jeq_cleanOutputEntries t u ht⟩

theorem jeq_cleanOutput (o o' : Json) (h : JEq o o') :
    JEq (cleanOutput o) (cleanOutput o') := by
  cases o <;> cases o' <;> simp only [JEq] at h
  case obj.obj l l' =>
    simp only [JEq] at h ⊢
    obtain ⟨m, hnd, hent, hperm⟩ := h
    simp only [cleanOutput, JEq]
    refine ⟨cleanOutputEntries m, ?_, jeq_cleanOutputEntries l m hent, ?_⟩
    · exact hnd.sublist (cleanOutputEntries_keys_sublist l)
    · rw [cleanOutputEntries_eq_filterMap, cleanOutputEntries_eq_filterMap]
      exact hperm.filterMap _
  case null.null => simp [cleanOutput, JEq]
  case arr.arr a b => simpa only [cleanOutput, JEq] using h
  all_goals first
    | exact Json.noConfusion h
    | (simp only [cleanOutput, JEq]; exact h)

theorem jeq_cleanOutput_list :
    ∀ l l', JEqList l l' → JEqList (l.map cleanOutput) (l'.map cleanOutput)
  | [], [], _ => by simp [JEqList]
  | [], _ :: _, h => absurd h (by simp [JEqList])
  | _ :: _, [], h => absurd h (by simp [JEqList])
  | a :: t, b :: u, h => by
    simp only [JEqList] at h
    simp only [List.map_cons, JEqList]
    exact ⟨jeq_cleanOutput a b h.1, jeq_cleanOutput_list t u h.2⟩

theorem jeq_processedOutputs (x y : Option Json) (h : OptJEq x y) :
    JEq (processedOutputs x) (processedOutputs y) := by
  match x, y with
  | none, none => simp [processedOutputs, JEq, JEqList]
  | none, some _ => exact absurd h (by simp [OptJEq])
  | some _, none => exact absurd h (by simp [OptJEq])
  | some o, some o' =>
    simp only [OptJEq] at h
    cases o <;> cases o' <;> simp only [JEq] at h
    case arr.arr a b =>
      cases a <;> cases b
      · simp [processedOutputs, JEq, JEqList]
      · exact absurd h (by simp [JEqList])
      · exact absurd h (by simp [JEqList])
      · simp only [processedOutputs, List.isEmpty_cons, if_neg]
        simp only [JEq]
        exact jeq_cleanOutput_list _ _ h
    all_goals first
      | exact Json.noConfusion h
      | simp [processedOutputs, JEq, JEqList]

theorem jeq_getD_source (x y : Option Json) (h : OptJEq x y) :
    JEq (x.getD (.str "")) (y.getD (.str "")) := by
  match x, y with
  | none, none => simp [JEq]
  | none, some _ => exact absurd h (by simp [OptJEq])
  | some _, none => exact absurd h (by simp [OptJEq])
  | some a, some b => simpa only [OptJEq, Option.getD_some] using h

theorem jeq_processCells :
    ∀ cs cs', JEqList cs cs' → JEqList (processCells cs) (processCells cs')
  | [], [], _ => by simp [processCells, JEqList]
  | [], _ :: _, h => absurd h (by simp [JEqList])
  | _ :: _, [], h => absurd h (by simp [JEqList])
  | c :: t, c' :: u, h => by
    simp only [JEqList] at h
    obtain ⟨hc, ht⟩ := h
    have hrec := jeq_processCells t u ht
    cases c <;> cases c' <;> simp only [JEq] at hc
    case obj.obj l l' =>
      have hobj : JEq (.obj l) (.obj l') := by
        simp only [JEq]
        exact hc
      simp only [processCells, JEqList]
      refine ⟨?_, hrec⟩
      simp only [JEq]
      refine ⟨[("source", (lookupJ "source" l').getD (.str "")),
              ("outputs", processedOutputs (lookupJ "outputs" l'))], ?_, ?_, ?_⟩
      · simp
      · simp only [JEqEntries]
        exact ⟨trivial, jeq_getD_source _ _ (jeq_obj_lookup hobj "source"),
               trivial, jeq_processedOutputs _ _ (jeq_obj_lookup hobj "outputs"),
               trivial⟩
      · exact List.Perm.refl _
    all_goals first
      | exact Json.noConfusion hc
      | (simp only [processCells]; exact hrec)

theorem jeq_prepare (d d' : Json) (h : JEq d d') :
    JEq (prepareContentForHashing d) (prepareContentForHashing d') := by
  cases d <;> cases d'
  case obj.obj l l' =>
    have hlk := jeq_obj_lookup h "cells"
    rcases hx : lookupJ "cells" l with _ | w
    · rcases hy : lookupJ "cells" l' with _ | w'
      · simp only [prepareContentForHashing, hx, hy]
        exact h
      · rw [hx, hy] at hlk
        exact absurd hlk (by simp [OptJEq])
    · rcases hy : lookupJ "cells" l' with _ | w'
      · rw [hx, hy] at hlk
        exact absurd hlk (by simp [OptJEq])
      · rw [hx, hy] at hlk
        simp only [OptJEq] at hlk
        cases w <;> cases w' <;> simp only [JEq] at hlk
        case arr.arr cs cs' =>
          simp only [prepareContentForHashing, hx, hy, JEq]
          exact jeq_processCells cs cs' hlk
        all_goals first
          | exact Json.noConfusion hlk
          | (simp only [prepareContentForHashing, hx, hy]; exact h)
  all_goals simp only [JEq] at h
  all_goals first
    | exact Json.noConfusion h
    | simp only [prepareContentForHashing, JEq]
  all_goals first
    | trivial
    | exact h

theorem hash_jeq (d d' : Json) (h : JEq d d') :
    generate_content_hash d = generate_content_hash d' := by
  unfold generate_content_hash jsonDumpsSorted
  rw [jeq_canon _ _ (jeq_prepare d d' h)]

/-- A cell-bearing document whose single output carries an execution count,
output metadata and a transient field. -/
def dVolA : Json := .obj [("cells", .arr [.obj [
  ("source", .str "print(1)"),
  ("outputs", .arr [.obj [
    ("output_type", .str "execute_result"),
    ("execution_count", .num 1),
    ("metadata", .obj [("scrolled", .bool true)]),
    ("transient", .obj [("display_id", .str "t1")])]])]])]

/-- The same document with a different execution count, different output
metadata and a different transient payload. -/
def dVolB : Json := .obj [("cells", .arr [.obj [
  ("source", .str "print(1)"),
  ("outputs", .arr [.obj [
    ("output_type", .str "execute_result"),
    ("execution_count", .num 7),
    ("metadata", .obj []),
    ("transient", .obj [("display_id", .str "zz"), ("extra", .num 3)])]])]])]

/-- A small document, and `dPermB` the same one with its top-level keys in
the opposite order. -/
def dPermA : Json := .obj [("cells", .arr []), ("metadata", .obj [])]

/-- `dPermA` with its two top-level entries swapped. -/
def dPermB : Json := .obj [("metadata", .obj []), ("cells", .arr [])]

theorem jeq_dPerm : JEq dPermA dPermB := by
  simp only [dPermA, dPermB, JEq]
  refine ⟨[("cells", .arr []), ("metadata", .obj [])], by simp, ?_, ?_⟩
  · simp only [JEqEntries]
    refine ⟨?_, ?_, ?_, jeq_obj_nil, ?_⟩ <;> first | trivial | simp [JEq, JEqList]
  · exact List.Perm.swap _ _ _

/-- C7: `generate_content_hash` is invariant under changes confined to output
execution-count fields, output metadata contents and transient fields of
cell-bearing documents (`docVolEq`); it is invariant under reordering of
dictionary keys at any depth (`JEq`); being a function of the document it is
deterministic, and as it serializes via the canonical sorted compact encoding
(`jsonDumpsSorted` of the cells-only projection `prepareContentForHashing`) no
JSON whitespace enters the encoding; and its value is always the lowercase-hex
SHA-256 digest: 64 characters drawn from 0-9, a-f. -/
theorem c7_content_hash_properties :
    (∀ d d', docVolEq d d' = true →
        generate_content_hash d = generate_content_hash d') ∧
    (∀ d d', JEq d d' →
        generate_content_hash d = generate_content_hash d') ∧
    (∀ d, generate_content_hash d =
        sha256Hex (strUtf8 (jsonDumpsSorted (prepareContentForHashing d)))) ∧
    (∀ d, (generate_content_hash d).data.length = 64 ∧
        ∀ c ∈ (generate_content_hash d).data,
          c ∈ ("0123456789abcdef" : String).data) :=
  ⟨hash_volEq, hash_jeq, fun _ => rfl, fun _ => sha256Hex_hex_format _⟩

/-- Witness for C7 at concrete documents: a volatile-field pair and a
key-permuted pair, with the hypotheses discharged concretely. -/
theorem c7_witness :
    docVolEq dVolA dVolB = true ∧
    generate_content_hash dVolA = generate_content_hash dVolB ∧
    JEq dPermA dPermB ∧
    generate_content_hash dPermA = generate_content_hash dPermB ∧
    (generate_content_hash dVolA).data.length = 64 :=
  ⟨by decide, c7_content_hash_properties.1 dVolA dVolB (by decide),
   jeq_dPerm, c7_content_hash_properties.2.1 dPermA dPermB jeq_dPerm,
   (c7_content_hash_properties.2.2.2 dVolA).1⟩
